import Mathlib

/-!
Verification of the drift-corrected timer/session scheduling engine of the
marlapps repository, as reimplemented in three apps:

* `src/apps/breathing/app.js`       (class `BreathingApp`)
* `src/apps/timer/app.js`           (class `TimerApp`: interval and countdown engines)
* `src/apps/pomodoro-timer/app.js`  (class `PomodoroTimer`)

The JavaScript is shallowly embedded: each stateful engine becomes a record
type plus pure transition functions taking the current wall-clock time
(`Date.now()`) as an explicit argument.  Epoch-millisecond timestamps and
second counts are modelled as `Int`.  Persisted JSON is modelled by the
`Marlapps.Json` inductive, with JSON numbers as integers (`JSON.parse` never
produces `NaN`/`Infinity`, so `Number.isFinite` holds exactly of number
values).  DOM rendering, audio, vibration, notifications and wake locks are
side effects the schedulers do not read back (with the one exception of the
countdown display's `done` CSS class, which is modelled as a boolean field
because the persistence layer stores it).
-/

namespace Marlapps

/-! ## JavaScript arithmetic primitives -/

/-- `Math.ceil(x / 1000)` on an integer number of milliseconds.
`Int` division in Lean rounds toward negative infinity for a positive
divisor, so negating twice yields the ceiling. -/
def jsCeil1000 (x : Int) : Int := -((-x) / 1000)

/-- JavaScript truthiness of a nullable number field (`null` and `0` are
falsy, every other number is truthy). -/
def jsTruthyOptInt : Option Int → Bool
  | none => false
  | some n => n != 0

/-! ## Breathing app (`src/apps/breathing/app.js`)

The phase list is fixed: `inhale`, `holdIn`, `exhale`, `holdOut`
(indices 0..3, `this.phases`). -/

/-- Per-phase durations in seconds (`this.session.durations` /
`this.data.durations`). -/
structure BDurations where
  inhale : Int
  holdIn : Int
  exhale : Int
  holdOut : Int
deriving Repr, DecidableEq

/-- `durations[this.phases[i].key]` for `i` in `0..3`.  Out-of-range indices
never occur on the paths modelled here (the search below only produces
indices in range); they are mapped to `0`. -/
def durAt (d : BDurations) (i : Int) : Int :=
  if i = 0 then d.inhale
  else if i = 1 then d.holdIn
  else if i = 2 then d.exhale
  else if i = 3 then d.holdOut
  else 0

/-- `hasActiveDuration`: `Object.values(durations).some(v => v > 0)`. -/
def hasActiveDuration (d : BDurations) : Bool :=
  decide (0 < d.inhale) || decide (0 < d.holdIn) ||
    decide (0 < d.exhale) || decide (0 < d.holdOut)

/-- `findFirstPhaseIndex`: first index whose duration is positive, else `-1`. -/
def findFirstPhaseIndex (d : BDurations) : Int :=
  if 0 < d.inhale then 0
  else if 0 < d.holdIn then 1
  else if 0 < d.exhale then 2
  else if 0 < d.holdOut then 3
  else -1

/-- The mutable session record built by `createIdleSession` and mutated in
place by the app.  `durations` is `null` while idle in the source; the model
uses the all-zero record there (it is only ever read while a session is
active, after `startSession` stored a real record). -/
structure BSession where
  active : Bool
  paused : Bool
  cycle : Nat
  totalCycles : Nat
  phaseIndex : Int
  phaseEndsAt : Int
  sessionEndsAt : Int
  phaseRemainingMs : Int
  sessionRemainingMs : Int
  durations : BDurations
deriving Repr, DecidableEq

/-- `createIdleSession()`. -/
def createIdleSession : BSession :=
  { active := false, paused := false, cycle := 0, totalCycles := 0
    phaseIndex := -1, phaseEndsAt := 0, sessionEndsAt := 0
    phaseRemainingMs := 0, sessionRemainingMs := 0
    durations := ⟨0, 0, 0, 0⟩ }

/-- One structural unrolling budget for the
`while (nextIndex >= this.phases.length)` loop of `getNextPhase`: each pass
subtracts 4, so `idx.toNat` passes always reach the exit condition (the
sufficiency is proved in `wrapGo_spec` below). -/
def wrapGo : Nat → Int → Nat → Int × Nat
  | 0, idx, cyc => (idx, cyc)
  | fuel + 1, idx, cyc =>
    if 4 ≤ idx then wrapGo fuel (idx - 4) (cyc + 1) else (idx, cyc)

/-- The inner `while (nextIndex >= this.phases.length)` loop of
`getNextPhase`: wraps a linear index into `(index, cycle)` with four phases
per cycle. -/
def wrapPhase (idx : Int) (cyc : Nat) : Int × Nat :=
  wrapGo idx.toNat idx cyc

/-- The `for (let step = 0; step < this.phases.length * 2; step += 1)` search
of `getNextPhase`, with the step counter and the remaining iteration budget
explicit.  Returns `none` either when the wrapped cycle exceeds
`totalCycles` (session complete) or when the budget runs out. -/
def nextSearch (d : BDurations) (totalCycles : Nat) (cycle : Nat)
    (phaseIndex : Int) : Nat → Nat → Option (Nat × Int)
  | _, 0 => none
  | step, fuel + 1 =>
    let wi := wrapPhase (phaseIndex + step + 1) cycle
    if totalCycles < wi.2 then none
    else if 0 < durAt d wi.1 then some (wi.2, wi.1)
    else nextSearch d totalCycles cycle phaseIndex (step + 1) fuel

/-- `getNextPhase(cycle, phaseIndex)`: searches at most `2 * 4` steps past
the current position. -/
def getNextPhase (d : BDurations) (totalCycles : Nat) (cycle : Nat)
    (phaseIndex : Int) : Option (Nat × Int) :=
  nextSearch d totalCycles cycle phaseIndex 0 8

/-- `enterPhase(phaseIndex)`: the new phase deadline is computed from the
current wall clock (`Date.now() + seconds * 1000`). -/
def enterPhase (s : BSession) (phaseIndex : Int) (now : Int) : BSession :=
  { s with phaseIndex := phaseIndex
           phaseEndsAt := now + durAt s.durations phaseIndex * 1000 }

/-- `startSession()`, after the durations and cycle count have been read from
the inputs.  `none` models the two early `return`s that surface an
invalid-configuration message and leave `this.session` untouched.  The
`initialPhaseIndex === -1` fallback (which resets to the idle session) is
kept even though it is unreachable. -/
def startSession (d : BDurations) (totalCycles : Nat) (now : Int) :
    Option BSession :=
  if !hasActiveDuration d then none
  else
    let cycleSeconds := d.inhale + d.holdIn + d.exhale + d.holdOut
    let totalMs := cycleSeconds * (totalCycles : Int) * 1000
    if totalMs ≤ 0 then none
    else
      let s := { createIdleSession with
                   active := true, totalCycles := totalCycles, cycle := 1
                   durations := d, sessionEndsAt := now + totalMs }
      let i := findFirstPhaseIndex d
      if i = -1 then some createIdleSession
      else some (enterPhase s i now)

/-- `tick()`.  A single call advances at most one phase boundary (the source
uses `if (now >= this.session.phaseEndsAt)`, not a loop).  `completeSession`
replaces the session with `createIdleSession()`. -/
def btick (s : BSession) (now : Int) : BSession :=
  if !s.active || s.paused then s
  else if s.phaseEndsAt ≤ now then
    match getNextPhase s.durations s.totalCycles s.cycle s.phaseIndex with
    | none => createIdleSession
    | some (c, i) => enterPhase { s with cycle := c } i now
  else s

/-- `pauseSession()`. -/
def pauseSession (s : BSession) (now : Int) : BSession :=
  if !s.active || s.paused then s
  else
    { s with phaseRemainingMs := max 0 (s.phaseEndsAt - now)
             sessionRemainingMs := max 0 (s.sessionEndsAt - now)
             paused := true }

/-- `resumeSession()`. -/
def resumeSession (s : BSession) (now : Int) : BSession :=
  if !s.active || !s.paused then s
  else
    { s with phaseEndsAt := now + s.phaseRemainingMs
             sessionEndsAt := now + s.sessionRemainingMs
             paused := false }

/-- The phase-remaining seconds shown by `updateDisplay()`:
`Math.max(0, Math.ceil((phaseEndsAt - now) / 1000))`. -/
def displayedPhaseSeconds (s : BSession) (now : Int) : Int :=
  max 0 (jsCeil1000 (s.phaseEndsAt - now))

/-- The session-remaining seconds shown by `updateDisplay()`. -/
def displayedSessionSeconds (s : BSession) (now : Int) : Int :=
  max 0 (jsCeil1000 (s.sessionEndsAt - now))

/-! ## Timer app, interval engine (`src/apps/timer/app.js`)

`this.intervalState` plus `this.data.intervalSettings`.  A single `tick`
call freezes `Date.now()`; the source re-reads the clock inside its catch-up
loop, but every read during one synchronous call is modelled as the same
instant. -/

/-- `this.data.intervalSettings`. -/
structure IntervalSettings where
  work : Int
  rest : Int
  rounds : Int
deriving Repr, DecidableEq

/-- `this.intervalState.phase`: `'work'` or `'rest'`. -/
inductive IPhase where
  | work
  | rest
deriving Repr, DecidableEq

/-- `this.intervalState`. -/
structure IntervalState where
  running : Bool
  paused : Bool
  currentRound : Int
  phase : IPhase
  timeRemaining : Int
  phaseEndsAt : Option Int
deriving Repr, DecidableEq

/-- The state installed by `resetInterval()` (and by the constructor). -/
def resetIntervalState : IntervalState :=
  { running := false, paused := false, currentRound := 0, phase := .work
    timeRemaining := 0, phaseEndsAt := none }

/-- The loop measure of the `tickInterval` catch-up loop: each pass either
moves work to rest (same round) or rest to the next round's work (or
returns), so the measure strictly decreases. -/
def intervalMeasure (st : IntervalSettings) (s : IntervalState) : Nat :=
  2 * (st.rounds - s.currentRound).toNat + (if s.phase = .work then 1 else 0)

/-- Structural unrolling of the `while (running && now >= phaseEndsAt)`
catch-up loop of `tickInterval`, with an explicit iteration budget.  Work
switches to rest by adding `rest * 1000` to the previous deadline; rest
either finishes all rounds (`resetInterval` and return) or starts the next
round's work by adding `work * 1000`. -/
def tickIntervalGo (st : IntervalSettings) (now : Int) :
    Nat → IntervalState → IntervalState
  | 0, s => s
  | fuel + 1, s =>
    match s.phaseEndsAt with
    | none => s
    | some e =>
      if s.running = true ∧ e ≤ now then
        if s.phase = .work then
          tickIntervalGo st now fuel
            { s with phase := .rest, phaseEndsAt := some (e + st.rest * 1000) }
        else if st.rounds ≤ s.currentRound then
          resetIntervalState
        else
          tickIntervalGo st now fuel
            { s with currentRound := s.currentRound + 1, phase := .work
                     phaseEndsAt := some (e + st.work * 1000) }
      else s

/-- The `while (running && now >= phaseEndsAt)` catch-up loop of
`tickInterval`, run with a budget strictly exceeding its measure (the
budget is proved irrelevant in `tickIntervalGo_fuel` below, so this is the
full while loop). -/
def tickIntervalLoop (st : IntervalSettings) (s : IntervalState) (now : Int) :
    IntervalState :=
  tickIntervalGo st now (intervalMeasure st s + 1) s

/-- `tickInterval()`.  The guard `!running || !phaseEndsAt` treats both
`null` and the number `0` as falsy.  After the loop (when it did not finish
the rounds), `timeRemaining` is recomputed from the absolute deadline. -/
def tickInterval (st : IntervalSettings) (s : IntervalState) (now : Int) :
    IntervalState :=
  if s.running && jsTruthyOptInt s.phaseEndsAt then
    let s2 := tickIntervalLoop st s now
    if s2.running then
      { s2 with timeRemaining := max 0 (jsCeil1000 (s2.phaseEndsAt.getD 0 - now)) }
    else s2
  else s

/-- `startInterval()`: resumes from pause by rebuilding the deadline from the
remaining whole seconds, or starts a fresh session on round 1. -/
def startInterval (st : IntervalSettings) (s : IntervalState) (now : Int) :
    IntervalState :=
  if s.paused then
    { s with paused := false, running := true
             phaseEndsAt := some (now + s.timeRemaining * 1000) }
  else
    { running := true, paused := false, currentRound := 1, phase := .work
      timeRemaining := st.work, phaseEndsAt := some (now + st.work * 1000) }

/-- `pauseInterval()`: unguarded; snapshots the remaining time in whole
seconds (`Math.ceil`) and leaves `phaseEndsAt` in place. -/
def pauseInterval (s : IntervalState) (now : Int) : IntervalState :=
  { s with running := false, paused := true
           timeRemaining :=
             if jsTruthyOptInt s.phaseEndsAt then
               max 0 (jsCeil1000 (s.phaseEndsAt.getD 0 - now))
             else s.timeRemaining }

/-! ## Timer app, countdown engine (`src/apps/timer/app.js`)

`this.countdownState`, the `done` CSS class of the countdown display, and
the `this.lastCompletedCountdown` field (all three are persisted together,
so they are modelled as one record). -/

/-- `this.countdownState` plus the `done` class and
`this.lastCompletedCountdown`. -/
structure CountdownState where
  running : Bool
  paused : Bool
  timeRemaining : Int
  totalTime : Int
  endAt : Option Int
  done : Bool
  lastCompleted : Int
deriving Repr, DecidableEq

/-- The constructor's initial countdown state. -/
def initialCountdownState : CountdownState :=
  { running := false, paused := false, timeRemaining := 0, totalTime := 0
    endAt := none, done := false, lastCompleted := 0 }

/-- `tickCountdown()`: recomputes `timeRemaining` from the absolute `endAt`;
on reaching zero stops the countdown, clears `endAt`, records the completed
duration and marks the display done. -/
def tickCountdown (s : CountdownState) (now : Int) : CountdownState :=
  if s.running && jsTruthyOptInt s.endAt then
    let r := max 0 (jsCeil1000 (s.endAt.getD 0 - now))
    if r ≤ 0 then
      { s with timeRemaining := r, running := false, endAt := none
               lastCompleted := s.totalTime, done := true }
    else { s with timeRemaining := r }
  else s

/-- `startCountdown()`. -/
def startCountdown (s : CountdownState) (now : Int) : CountdownState :=
  if s.timeRemaining ≤ 0 && !s.paused then s
  else
    { s with running := true, paused := false
             endAt := some (now + s.timeRemaining * 1000), done := false }

/-- `pauseCountdown()`: unguarded; snapshots the remaining time in whole
seconds and clears `endAt`. -/
def pauseCountdown (s : CountdownState) (now : Int) : CountdownState :=
  { s with running := false, paused := true
           timeRemaining :=
             if jsTruthyOptInt s.endAt then
               max 0 (jsCeil1000 (s.endAt.getD 0 - now))
             else s.timeRemaining
           endAt := none }

/-! ## Pomodoro app (`src/apps/pomodoro-timer/app.js`)

`this.settings` and `this.state`.  `saveState()` stamps
`state.lastUpdated = Date.now()` before persisting; it is kept in the record
but carries no scheduling meaning while `targetEndAt` is set.  The history
map and the `autoStartBreaks` deferred `setTimeout` are outside the model
(the latter fires after the synchronous transition has returned). -/

/-- `this.state.sessionType`. -/
inductive PomSession where
  | work
  | shortBreak
  | longBreak
deriving Repr, DecidableEq

/-- `this.settings` (the two booleans `autoStartBreaks`/`soundEnabled` do not
affect the synchronous state transitions modelled here). -/
structure PomSettings where
  targetPomodoros : Int
  workDuration : Int
  shortBreakDuration : Int
  longBreakDuration : Int
deriving Repr, DecidableEq

/-- `this.state`. -/
structure PomState where
  timeRemaining : Int
  sessionType : PomSession
  pomodoroCount : Int
  totalWorkSessions : Int
  isActive : Bool
  lastUpdated : Int
  targetEndAt : Option Int
deriving Repr, DecidableEq

/-- `clampValue(value, min, max, fallback)` for an already-finite number
(the `Number.isFinite` fallback branch is only reachable from `NaN` inputs,
which cannot occur for the integer fields used here). -/
def clampValue (v lo hi : Int) : Int := min hi (max lo v)

/-- `getTargetPomodoros()`. -/
def getTargetPomodoros (st : PomSettings) : Int :=
  clampValue st.targetPomodoros 1 30

/-- `getDurationForSession()`. -/
def getDurationForSession (st : PomSettings) (s : PomState) : Int :=
  match s.sessionType with
  | .work => st.workDuration
  | .shortBreak => st.shortBreakDuration
  | .longBreak => st.longBreakDuration

/-- `pauseTimer()`: unguarded; snapshots the remaining whole seconds when a
deadline is set, then clears the deadline.  `saveState()` updates
`lastUpdated`. -/
def pauseTimer (s : PomState) (now : Int) : PomState :=
  { s with isActive := false
           timeRemaining :=
             if jsTruthyOptInt s.targetEndAt then
               max 0 (jsCeil1000 (s.targetEndAt.getD 0 - now))
             else s.timeRemaining
           targetEndAt := none
           lastUpdated := now }

/-- `completeSession()`: pauses, then advances the session type and the
counters, and loads the next session's full duration.  The JavaScript `%`
here is applied to nonnegative operands, where it agrees with `Int.emod`. -/
def completeSessionPom (st : PomSettings) (s : PomState) (now : Int) :
    PomState :=
  let s1 := pauseTimer s now
  let s2 :=
    if s1.sessionType = .work then
      let tws := s1.totalWorkSessions + 1
      { s1 with totalWorkSessions := tws
                sessionType := if tws % 4 = 0 then .longBreak else .shortBreak
                pomodoroCount := s1.pomodoroCount % getTargetPomodoros st + 1 }
    else { s1 with sessionType := .work }
  { s2 with timeRemaining := getDurationForSession st s2 * 60, lastUpdated := now }

/-- `tickTimer()`. -/
def tickTimer (st : PomSettings) (s : PomState) (now : Int) : PomState :=
  if s.isActive && jsTruthyOptInt s.targetEndAt then
    let r := max 0 (jsCeil1000 (s.targetEndAt.getD 0 - now))
    let s1 := { s with timeRemaining := r, lastUpdated := now }
    if r ≤ 0 then completeSessionPom st s1 now else s1
  else s

/-- `startTimer()`: keeps an existing (truthy) deadline, otherwise derives a
fresh one from `timeRemaining`, then ticks immediately. -/
def startTimerPom (st : PomSettings) (s : PomState) (now : Int) : PomState :=
  let s1 := { s with isActive := true
                     targetEndAt :=
                       if jsTruthyOptInt s.targetEndAt then s.targetEndAt
                       else some (now + s.timeRemaining * 1000) }
  let s2 := tickTimer st s1 now
  { s2 with lastUpdated := now }

/-- `loadState()` applied to a persisted `state` object.  `saveData()` writes
`this.state` verbatim and every field is JSON-representable, so the snapshot
is modelled as a `PomState` record.  With a numeric `targetEndAt` the
remaining time is re-derived from the deadline; otherwise an elapsed-time
fallback uses `lastUpdated` (`Math.floor` is `Int` division).  The spread
merge with `defaultState` is the identity on a complete record. -/
def loadStatePom (saved : PomState) (now : Int) : PomState :=
  let s :=
    if saved.isActive && saved.targetEndAt.isSome then
      { saved with
          timeRemaining := max 0 (jsCeil1000 (saved.targetEndAt.getD 0 - now)) }
    else if saved.isActive then
      { saved with
          timeRemaining :=
            max 0 (saved.timeRemaining - (now - saved.lastUpdated) / 1000) }
    else saved
  let s2 := if s.pomodoroCount < 1 then { s with pomodoroCount := 1 } else s
  if s2.totalWorkSessions < 0 then
    { s2 with totalWorkSessions := max 0 (s2.pomodoroCount - 1) }
  else s2

/-- The constructor's restore path: `loadState()` followed by the
auto-resume `if (this.state.isActive) this.startTimer()`. -/
def restorePom (st : PomSettings) (saved : PomState) (loadNow : Int) :
    PomState :=
  let s := loadStatePom saved loadNow
  if s.isActive then startTimerPom st s loadNow else s

/-- The scheduling-relevant projection of a pomodoro state: everything
except the `lastUpdated` save timestamp. -/
def pomCore (s : PomState) :
    Int × PomSession × Int × Int × Bool × Option Int :=
  (s.timeRemaining, s.sessionType, s.pomodoroCount, s.totalWorkSessions,
    s.isActive, s.targetEndAt)

/-! ## Persisted JSON values

`JSON.parse` output: `null`, booleans, numbers (modelled as integers —
`JSON.parse` never yields `NaN` or `Infinity`), strings, arrays and
objects. -/

/-- A parsed JSON value. -/
inductive Json where
  | null
  | bool (b : Bool)
  | num (n : Int)
  | str (s : String)
  | arr (xs : List Json)
  | obj (fields : List (String × Json))
deriving Repr

/-- Property access `j[k]`, with `none` for JavaScript `undefined`.
Primitives and arrays have none of the accessed keys; access on `null`
would throw, and every call site modelled here is reached only after a
guard (or inside a `try` whose `catch` is modelled explicitly). -/
def jsGet (j : Json) (k : String) : Option Json :=
  match j with
  | .obj fields => (fields.find? (fun p => p.1 == k)).map (·.2)
  | _ => none

/-- JavaScript truthiness. -/
def truthy : Json → Bool
  | .null => false
  | .bool b => b
  | .num n => n != 0
  | .str s => s != ""
  | .arr _ => true
  | .obj _ => true

/-- `typeof x === 'object'` (true of `null`, arrays and objects). -/
def typeofIsObject : Json → Bool
  | .null => true
  | .arr _ => true
  | .obj _ => true
  | _ => false

/-- `Array.isArray`. -/
def jsIsArray : Json → Bool
  | .arr _ => true
  | _ => false

/-- Decimal digits at the head of a character list. -/
def leadingDigitsToInt (cs : List Char) : Option Int :=
  let ds := cs.takeWhile (·.isDigit)
  if ds.isEmpty then none
  else some (ds.foldl (fun a c => a * 10 + ((c.toNat : Int) - 48)) 0)

/-- `Number.parseInt(s, 10)` on a string: skip leading whitespace, optional
sign, then leading decimal digits; `none` models `NaN`. -/
def jsParseIntStr (s : String) : Option Int :=
  let cs := s.toList.dropWhile
    (fun c => c == ' ' || c == '\t' || c == '\n' || c == '\r')
  match cs with
  | '-' :: rest => (leadingDigitsToInt rest).map (-·)
  | '+' :: rest => leadingDigitsToInt rest
  | _ => leadingDigitsToInt cs

/-- `Number.parseInt(v, 10)` on an arbitrary value: the value is first
converted to a string (`undefined`/`null`/booleans/objects stringify to
digit-free text, so they parse to `NaN`; an array stringifies to its
comma-joined elements, so parsing sees its first element, with `null` and
nested empty arrays contributing the empty string). -/
def jsParseIntVal : Json → Option Int
  | .num n => some n
  | .str s => jsParseIntStr s
  | .arr [] => none
  | .arr (.null :: _) => none
  | .arr (x :: _) => jsParseIntVal x
  | _ => none

/-- `Number.parseInt` of a possibly-`undefined` field. -/
def jsParseIntOpt : Option Json → Option Int
  | none => none
  | some j => jsParseIntVal j

/-- `Number.isFinite(v) ? v : null` for a field read from parsed JSON: only
actual numbers qualify (no coercion, and parsed JSON numbers are always
finite). -/
def jsFiniteNum : Option Json → Option Int
  | some (.num n) => some n
  | _ => none

/-! ## Breathing app persistence (`loadData` / `saveData`) -/

/-- `this.data` of the breathing app. -/
structure BData where
  technique : String
  cycles : Int
  durations : BDurations
deriving Repr, DecidableEq

/-- The `fallback` object of `BreathingApp.loadData`. -/
def bFallback : BData :=
  { technique := "box", cycles := 8, durations := ⟨4, 4, 4, 4⟩ }

/-- The `this.techniques` presets (their `hint` strings are display-only). -/
def techniquePreset (t : String) : BDurations :=
  if t = "balanced" then ⟨5, 5, 5, 5⟩
  else if t = "four-seven-eight" then ⟨4, 7, 8, 0⟩
  else ⟨4, 4, 4, 4⟩

/-- `coerceInt(value, min, max, fallback)`. -/
def coerceInt (v : Option Json) (lo hi fallback : Int) : Int :=
  match jsParseIntOpt v with
  | none => fallback
  | some n => min hi (max lo n)

/-- A preset rendered as the source-durations object of `loadData`. -/
def presetJson (t : String) : Json :=
  let p := techniquePreset t
  .obj [("inhale", .num p.inhale), ("holdIn", .num p.holdIn),
        ("exhale", .num p.exhale), ("holdOut", .num p.holdOut)]

/-- The body of the `try` block of `BreathingApp.loadData()`, for a parsed
non-`null` top-level value. -/
def breathingLoadDataCore (parsed : Json) : BData :=
  let technique :=
    match jsGet parsed "technique" with
    | some (.str s) =>
      if s = "box" || s = "balanced" || s = "four-seven-eight" then s
      else bFallback.technique
    | _ => bFallback.technique
  let cycles := coerceInt (jsGet parsed "cycles") 1 60 bFallback.cycles
  let srcD : Json :=
    match jsGet parsed "durations" with
    | some dj => if truthy dj && typeofIsObject dj then dj
                 else presetJson technique
    | none => presetJson technique
  { technique := technique
    cycles := cycles
    durations :=
      { inhale := coerceInt (jsGet srcD "inhale") 1 30 4
        holdIn := coerceInt (jsGet srcD "holdIn") 0 30 4
        exhale := coerceInt (jsGet srcD "exhale") 1 30 4
        holdOut := coerceInt (jsGet srcD "holdOut") 0 30 4 } }

/-- `BreathingApp.loadData()`.  `none` models both an absent storage key and
a `JSON.parse` exception (the `catch` returns the fallback).  A parsed
top-level `null` makes the unguarded `parsed.technique` access throw a
`TypeError`, which the same `catch` turns into the fallback. -/
def breathingLoadData (input : Option Json) : BData :=
  match input with
  | none => bFallback
  | some .null => bFallback
  | some parsed => breathingLoadDataCore parsed

/-- The breathing constructor's session after a reload: `loadData` restores
only the settings, and `this.session = this.createIdleSession()`
unconditionally builds a fresh idle session — no runtime state is
persisted. -/
def breathingReloadSession (_input : Option Json) : BSession :=
  createIdleSession

/-! ## Timer app persistence (`loadData` / `captureRuntimeState` /
`restoreRuntimeState`) -/

/-- A validated alarm produced by `loadData`. -/
structure TAlarm where
  id : String
  time : String
  label : String
  days : List Int
  enabled : Bool
  lastTriggered : Option Int
deriving Repr, DecidableEq

/-- The countdown runtime snapshot produced by `loadData`
(`runtime.countdown`). -/
structure TCountdownRuntime where
  running : Bool
  paused : Bool
  timeRemaining : Int
  totalTime : Int
  endAt : Option Int
  done : Bool
deriving Repr, DecidableEq

/-- `this.data` of the timer app (the interval runtime snapshot has exactly
the fields of `IntervalState`). -/
structure TimerData where
  alarms : List TAlarm
  intervalSettings : IntervalSettings
  activeTab : String
  recentCountdowns : List Int
  runtimeInterval : Option IntervalState
  runtimeCountdown : Option TCountdownRuntime
  runtimeLastCompleted : Int
deriving Repr

/-- The `defaults` object of `TimerApp.loadData`. -/
def timerDefaults : TimerData :=
  { alarms := [], intervalSettings := ⟨30, 10, 8⟩, activeTab := "timer"
    recentCountdowns := [60, 300, 600], runtimeInterval := none
    runtimeCountdown := none, runtimeLastCompleted := 0 }

/-- The alarm-time pattern of `loadData`:
matches `([01]\d|2[0-3]):([0-5]\d)` anchored on both sides. -/
def validAlarmTime (s : String) : Bool :=
  match s.toList with
  | [h1, h2, c, m1, m2] =>
    c == ':' &&
    ((h1 == '0' || h1 == '1') && h2.isDigit ||
      h1 == '2' && ('0' ≤ h2 && h2 ≤ '3')) &&
    ('0' ≤ m1 && m1 ≤ '5') && m2.isDigit
  | _ => false

/-- `[...new Set(list)]`: deduplication keeping first occurrences. -/
def dedupFirst (l : List Int) : List Int :=
  l.foldl (fun acc x => if acc.contains x then acc else acc ++ [x]) []

/-- `toBoundedInt(value, min, max, fallback)` of `TimerApp.loadData`. -/
def toBoundedInt (v : Option Json) (lo hi fallback : Int) : Int :=
  match jsParseIntOpt v with
  | none => fallback
  | some n => min hi (max lo n)

/-- Validation of one entry of `parsed.alarms` (the `.map` callback;
`none` models the `null` results removed by `.filter(Boolean)`). -/
def parseAlarm (index : Nat) (j : Json) : Option TAlarm :=
  if !(truthy j && typeofIsObject j) then none
  else
    match jsGet j "time" with
    | some (.str t) =>
      if validAlarmTime t then
        some { id := match jsGet j "id" with
                     | some (.str s) => s
                     | _ => "alarm-" ++ toString index
               time := t
               label := match jsGet j "label" with
                        | some (.str s) => s
                        | _ => ""
               days := match jsGet j "days" with
                       | some (.arr ds) =>
                         dedupFirst (ds.filterMap (fun dj =>
                           match jsParseIntVal dj with
                           | some n => if 0 ≤ n && n ≤ 6 then some n else none
                           | none => none))
                       | _ => []
               enabled := match jsGet j "enabled" with
                          | some (.bool false) => false
                          | _ => true
               lastTriggered := jsFiniteNum (jsGet j "lastTriggered") }
      else none
    | _ => none

/-- The `runtime.interval` validation of `loadData`. -/
def parseIntervalRuntime (j : Json) : Option IntervalState :=
  match j with
  | .obj _ =>
    some { running := match jsGet j "running" with
                      | some (.bool true) => true
                      | _ => false
           paused := match jsGet j "paused" with
                     | some (.bool true) => true
                     | _ => false
           currentRound := match jsParseIntOpt (jsGet j "currentRound") with
                           | some n => max 0 n
                           | none => 0
           phase := match jsGet j "phase" with
                    | some (.str "rest") => .rest
                    | _ => .work
           timeRemaining := match jsParseIntOpt (jsGet j "timeRemaining") with
                            | some n => max 0 n
                            | none => 0
           phaseEndsAt := jsFiniteNum (jsGet j "phaseEndsAt") }
  | _ => none

/-- The `runtime.countdown` validation of `loadData`. -/
def parseCountdownRuntime (j : Json) : Option TCountdownRuntime :=
  match j with
  | .obj _ =>
    some { running := match jsGet j "running" with
                      | some (.bool true) => true
                      | _ => false
           paused := match jsGet j "paused" with
                     | some (.bool true) => true
                     | _ => false
           timeRemaining := match jsParseIntOpt (jsGet j "timeRemaining") with
                            | some n => max 0 n
                            | none => 0
           totalTime := match jsParseIntOpt (jsGet j "totalTime") with
                        | some n => max 0 n
                        | none => 0
           endAt := jsFiniteNum (jsGet j "endAt")
           done := match jsGet j "done" with
                   | some (.bool true) => true
                   | _ => false }
  | _ => none

/-- `TimerApp.loadData()`.  `none` models an absent key or a `JSON.parse`
exception; a non-object (or array) top level yields the defaults. -/
def timerLoadData (input : Option Json) : TimerData :=
  match input with
  | none => timerDefaults
  | some parsed =>
    match parsed with
    | .obj _ =>
      let alarms :=
        match jsGet parsed "alarms" with
        | some (.arr xs) => xs.enum.filterMap (fun p => parseAlarm p.1 p.2)
        | _ => timerDefaults.alarms
      let isRaw :=
        match jsGet parsed "intervalSettings" with
        | some (j@(.obj _)) => j
        | _ => .obj []
      let intervalSettings : IntervalSettings :=
        { work := toBoundedInt (jsGet isRaw "work") 5 3600 30
          rest := toBoundedInt (jsGet isRaw "rest") 5 3600 10
          rounds := toBoundedInt (jsGet isRaw "rounds") 1 99 8 }
      let activeTab :=
        match jsGet parsed "activeTab" with
        | some (.str s) =>
          if s = "timer" || s = "alarm" || s = "intervals" then s
          else timerDefaults.activeTab
        | _ => timerDefaults.activeTab
      let recentCountdowns :=
        match jsGet parsed "recentCountdowns" with
        | some (.arr xs) =>
          ((xs.map jsParseIntVal).filterMap (fun o =>
            match o with
            | some n => if 0 < n then some n else none
            | none => none)).take 8
        | _ => timerDefaults.recentCountdowns
      let runtimeRaw :=
        match jsGet parsed "runtime" with
        | some (j@(.obj _)) => j
        | _ => .obj []
      let runtimeInterval :=
        match jsGet runtimeRaw "interval" with
        | some ij => if truthy ij && typeofIsObject ij && !jsIsArray ij
                     then parseIntervalRuntime ij else none
        | none => none
      let runtimeCountdown :=
        match jsGet runtimeRaw "countdown" with
        | some cj => if truthy cj && typeofIsObject cj && !jsIsArray cj
                     then parseCountdownRuntime cj else none
        | none => none
      let lastCompleted :=
        match jsParseIntOpt (jsGet runtimeRaw "lastCompletedCountdown") with
        | some n => max 0 n
        | none => timerDefaults.runtimeLastCompleted
      { alarms := alarms, intervalSettings := intervalSettings
        activeTab := activeTab
        recentCountdowns :=
          if recentCountdowns.isEmpty then timerDefaults.recentCountdowns
          else recentCountdowns
        runtimeInterval := runtimeInterval
        runtimeCountdown := runtimeCountdown
        runtimeLastCompleted := lastCompleted }
    | _ => timerDefaults

/-- The interval half of `restoreRuntimeState` (state fields only; the
`Number.isFinite` re-checks always pass on `loadData` output, whose numeric
fields are genuine numbers). -/
def restoreInterval (ri : Option IntervalState) (s0 : IntervalState) :
    IntervalState :=
  match ri with
  | none => s0
  | some saved =>
    let canRun := saved.running && saved.phaseEndsAt.isSome
    { running := canRun
      paused := saved.paused && !canRun
      currentRound := max 0 saved.currentRound
      phase := saved.phase
      timeRemaining := max 0 saved.timeRemaining
      phaseEndsAt := if canRun then saved.phaseEndsAt else none }

/-- The countdown half of `restoreRuntimeState`; `done` re-adds the display
class, `lastCompleted` was restored just above it in the source. -/
def restoreCountdown (rc : Option TCountdownRuntime) (s0 : CountdownState) :
    CountdownState :=
  match rc with
  | none => s0
  | some saved =>
    let canRun := saved.running && saved.endAt.isSome
    { running := canRun
      paused := saved.paused && !canRun
      timeRemaining := max 0 saved.timeRemaining
      totalTime := max 0 saved.totalTime
      endAt := if canRun then saved.endAt else none
      done := s0.done || saved.done
      lastCompleted := s0.lastCompleted }

/-- `restoreRuntimeState` for the interval engine including its silent
catch-up tick (`this.tickInterval({ silent: true, persist: false })` when
the restored state is running). -/
def timerRestoreInterval (st : IntervalSettings) (ri : Option IntervalState)
    (s0 : IntervalState) (loadNow : Int) : IntervalState :=
  let s := restoreInterval ri s0
  if s.running then tickInterval st s loadNow else s

/-- `restoreRuntimeState` for the countdown engine including the
`lastCompletedCountdown` restore and the silent catch-up tick. -/
def timerRestoreCountdown (data : TimerData) (s0 : CountdownState)
    (loadNow : Int) : CountdownState :=
  let s1 := { s0 with lastCompleted := max 0 data.runtimeLastCompleted }
  let s := restoreCountdown data.runtimeCountdown s1
  if s.running then tickCountdown s loadNow else s

/-- `captureRuntimeState().interval` as persisted JSON (`null` when the
interval engine is neither running nor paused). -/
def captureIntervalJson (s : IntervalState) : Json :=
  if s.running || s.paused then
    .obj [("running", .bool s.running), ("paused", .bool s.paused),
          ("currentRound", .num s.currentRound),
          ("phase", .str (match s.phase with | .work => "work" | .rest => "rest")),
          ("timeRemaining", .num s.timeRemaining),
          ("phaseEndsAt", match s.phaseEndsAt with
                          | some e => .num e
                          | none => .null)]
  else .null

/-- `captureRuntimeState().countdown` as persisted JSON. -/
def captureCountdownJson (s : CountdownState) : Json :=
  if s.running || s.paused || decide (0 < s.totalTime) || s.done then
    .obj [("running", .bool s.running), ("paused", .bool s.paused),
          ("timeRemaining", .num s.timeRemaining),
          ("totalTime", .num s.totalTime),
          ("endAt", match s.endAt with | some e => .num e | none => .null),
          ("done", .bool s.done)]
  else .null

/-- `captureRuntimeState()` as persisted JSON. -/
def captureRuntimeJson (si : IntervalState) (sc : CountdownState) : Json :=
  .obj [("interval", captureIntervalJson si),
        ("countdown", captureCountdownJson sc),
        ("lastCompletedCountdown", .num sc.lastCompleted)]

/-- The full object written by `saveData()` (with no alarms, the default
tab and the default recent list; the scheduler state lives under
`runtime`). -/
def timerSavedJson (st : IntervalSettings) (si : IntervalState)
    (sc : CountdownState) : Json :=
  .obj [("alarms", .arr []),
        ("intervalSettings",
          .obj [("work", .num st.work), ("rest", .num st.rest),
                ("rounds", .num st.rounds)]),
        ("activeTab", .str "timer"),
        ("recentCountdowns", .arr [.num 60, .num 300, .num 600]),
        ("runtime", captureRuntimeJson si sc)]

/-- The object written by the breathing app's `saveData()`. -/
def breathingSavedJson (d : BData) : Json :=
  .obj [("technique", .str d.technique), ("cycles", .num d.cycles),
        ("durations",
          .obj [("inhale", .num d.durations.inhale),
                ("holdIn", .num d.durations.holdIn),
                ("exhale", .num d.durations.exhale),
                ("holdOut", .num d.durations.holdOut)])]

/-! ## Auxiliary definitions used by the theorems -/

/-- Milliseconds of session time covered up to and including the interval
engine's current phase: the deadline of a drift-free engine started at `t0`
is exactly `t0 + intervalPosMs`. -/
def intervalPosMs (st : IntervalSettings) (s : IntervalState) : Int :=
  ((s.currentRound - 1) * (st.work + st.rest) +
    (match s.phase with | .work => st.work | .rest => st.work + st.rest)) * 1000

/-- The session-remaining values reported by `updateDisplay()` after each
tick of a tick sequence. -/
def sessionDisplayTrace (s : BSession) : List Int → List Int
  | [] => []
  | t :: ts => displayedSessionSeconds (btick s t) t :: sessionDisplayTrace (btick s t) ts

/-- The phase-remaining values reported by `updateDisplay()` after each
tick of a tick sequence. -/
def phaseDisplayTrace (s : BSession) : List Int → List Int
  | [] => []
  | t :: ts => displayedPhaseSeconds (btick s t) t :: phaseDisplayTrace (btick s t) ts

/-- The step-`s` candidate of the `getNextPhase` search either overflows the
cycle budget or hits a positive-duration phase (at such a step the search
returns). -/
def searchDecides (d : BDurations) (totalCycles cycle : Nat) (phaseIndex : Int)
    (step : Nat) : Prop :=
  totalCycles < (wrapPhase (phaseIndex + step + 1) cycle).2 ∨
    0 < durAt d (wrapPhase (phaseIndex + step + 1) cycle).1

/-- The box durations (4 s per phase). -/
def boxDurations : BDurations := ⟨4, 4, 4, 4⟩

/-- A breathing session started at `t = 0` with 4 s phases and 2 cycles
(total session 32 s, first phase deadline 4000 ms). -/
def bStarted : BSession := (startSession boxDurations 2 0).getD createIdleSession

/-- A 60 s countdown started at `t = 0`. -/
def cdStarted : CountdownState :=
  startCountdown { initialCountdownState with timeRemaining := 60, totalTime := 60 } 0

/-- A running pomodoro work session started at `t = 0` with the default
25-minute work duration. -/
def pomStarted : PomState :=
  { timeRemaining := 1500, sessionType := .work, pomodoroCount := 1
    totalWorkSessions := 0, isActive := true, lastUpdated := 0
    targetEndAt := some 1500000 }

/-- The default pomodoro settings. -/
def pomDefaultSettings : PomSettings :=
  { targetPomodoros := 4, workDuration := 25, shortBreakDuration := 5
    longBreakDuration := 15 }

/-! # Theorems -/

/-! ## Loop infrastructure -/

/-- `wrapGo` computes Euclidean division by 4 whenever its budget covers the
input. -/
theorem wrapGo_spec (fuel : Nat) :
    ∀ (idx : Int) (cyc : Nat), 0 ≤ idx → idx ≤ 4 * fuel + 3 →
      wrapGo fuel idx cyc = (idx % 4, cyc + (idx / 4).toNat) := by
  induction fuel with
  | zero =>
    intro idx cyc h0 hf
    have h1 : idx % 4 = idx := by omega
    have h2 : idx / 4 = 0 := by omega
    simp [wrapGo, h1, h2]
  | succ n ih =>
    intro idx cyc h0 hf
    by_cases h4 : 4 ≤ idx
    · rw [wrapGo, if_pos h4, ih (idx - 4) (cyc + 1) (by omega) (by omega)]
      have e1 : (idx - 4) % 4 = idx % 4 := by omega
      have e2 : cyc + 1 + ((idx - 4) / 4).toNat = cyc + (idx / 4).toNat := by omega
      rw [e1, e2]
    · have h1 : idx % 4 = idx := by omega
      have h2 : idx / 4 = 0 := by omega
      simp [wrapGo, if_neg h4, h1, h2]

/-- The `while` wrap of `getNextPhase` is division with remainder on
nonnegative indices. -/
theorem wrapPhase_spec (idx : Int) (cyc : Nat) (h0 : 0 ≤ idx) :
    wrapPhase idx cyc = (idx % 4, cyc + (idx / 4).toNat) :=
  wrapGo_spec idx.toNat idx cyc h0 (by omega)

/-- The wrapped index stays below 4 for nonnegative inputs. -/
theorem wrapPhase_fst_lt (idx : Int) (cyc : Nat) (h0 : 0 ≤ idx) :
    (wrapPhase idx cyc).1 < 4 ∧ 0 ≤ (wrapPhase idx cyc).1 := by
  rw [wrapPhase_spec idx cyc h0]
  constructor <;> simp <;> omega

/-- Loop-measure decrease: switching work to rest. -/
theorem measure_work_rest (st : IntervalSettings) (s : IntervalState)
    (e : Option Int) (hw : s.phase = IPhase.work) :
    intervalMeasure st { s with phase := IPhase.rest, phaseEndsAt := e } <
      intervalMeasure st s := by
  simp [intervalMeasure, hw]

/-- Loop-measure decrease: finishing rest and starting the next round. -/
theorem measure_rest_work (st : IntervalSettings) (s : IntervalState)
    (e : Option Int) (hw : ¬s.phase = IPhase.work)
    (hfin : ¬st.rounds ≤ s.currentRound) :
    intervalMeasure st
      { s with currentRound := s.currentRound + 1, phase := IPhase.work
               phaseEndsAt := e } < intervalMeasure st s := by
  simp [intervalMeasure, hw]
  omega

/-- The iteration budget of the interval catch-up loop is irrelevant once it
exceeds the loop measure. -/
theorem tickIntervalGo_fuel (st : IntervalSettings) (now : Int) :
    ∀ f g s, intervalMeasure st s < f → intervalMeasure st s < g →
      tickIntervalGo st now f s = tickIntervalGo st now g s := by
  intro f
  induction f with
  | zero => intro g s hf _; exact absurd hf (Nat.not_lt_zero _)
  | succ f ih =>
    intro g s hf hg
    cases g with
    | zero => exact absurd hg (Nat.not_lt_zero _)
    | succ g =>
      cases hE : s.phaseEndsAt with
      | none => simp [tickIntervalGo, hE]
      | some e =>
        simp only [tickIntervalGo, hE]
        by_cases h1 : s.running = true ∧ e ≤ now
        · simp only [if_pos h1]
          by_cases hw : s.phase = IPhase.work
          · simp only [if_pos hw]
            exact ih _ _
              (lt_of_lt_of_le (measure_work_rest st s _ hw) (Nat.lt_succ_iff.mp hf))
              (lt_of_lt_of_le (measure_work_rest st s _ hw) (Nat.lt_succ_iff.mp hg))
          · simp only [if_neg hw]
            by_cases hfin : st.rounds ≤ s.currentRound
            · simp [if_pos hfin]
            · simp only [if_neg hfin]
              exact ih _ _
                (lt_of_lt_of_le (measure_rest_work st s _ hw hfin) (Nat.lt_succ_iff.mp hf))
                (lt_of_lt_of_le (measure_rest_work st s _ hw hfin) (Nat.lt_succ_iff.mp hg))
        · simp only [if_neg h1]

/-- The loop is the identity on the reset state. -/
theorem tickIntervalLoop_reset (st : IntervalSettings) (now : Int) :
    tickIntervalLoop st resetIntervalState now = resetIntervalState := by
  simp [tickIntervalLoop, tickIntervalGo, resetIntervalState, intervalMeasure]

/-- Catching up to `t1` (with any sufficient budget) and then to a later
`t2` is the same as catching up to `t2` directly. -/
theorem tickIntervalGo_comp (st : IntervalSettings) (t1 t2 : Int)
    (h12 : t1 ≤ t2) :
    ∀ f s, intervalMeasure st s < f →
      tickIntervalLoop st (tickIntervalGo st t1 f s) t2 =
        tickIntervalLoop st s t2 := by
  intro f
  induction f with
  | zero => intro s hf; exact absurd hf (Nat.not_lt_zero _)
  | succ f ih =>
    intro s hf
    cases hE : s.phaseEndsAt with
    | none => simp [tickIntervalGo, hE]
    | some e =>
      simp only [tickIntervalGo, hE]
      by_cases h1 : s.running = true ∧ e ≤ t1
      · have h2 : s.running = true ∧ e ≤ t2 := ⟨h1.1, le_trans h1.2 h12⟩
        simp only [if_pos h1]
        by_cases hw : s.phase = IPhase.work
        · simp only [if_pos hw]
          rw [ih _ (lt_of_lt_of_le (measure_work_rest st s _ hw) (Nat.lt_succ_iff.mp hf))]
          conv_rhs => rw [tickIntervalLoop]
          simp only [tickIntervalGo, hE, if_pos h2, if_pos hw]
          rw [tickIntervalLoop]
          exact tickIntervalGo_fuel st t2 _ _ _
            (Nat.lt_succ_self _) (measure_work_rest st s _ hw)
        · simp only [if_neg hw]
          by_cases hfin : st.rounds ≤ s.currentRound
          · simp only [if_pos hfin, tickIntervalLoop_reset]
            conv_rhs => rw [tickIntervalLoop]
            simp [tickIntervalGo, hE, if_pos h2, if_neg hw, if_pos hfin]
          · simp only [if_neg hfin]
            rw [ih _ (lt_of_lt_of_le (measure_rest_work st s _ hw hfin) (Nat.lt_succ_iff.mp hf))]
            conv_rhs => rw [tickIntervalLoop]
            simp only [tickIntervalGo, hE, if_pos h2, if_neg hw, if_neg hfin]
            rw [tickIntervalLoop]
            exact tickIntervalGo_fuel st t2 _ _ _
              (Nat.lt_succ_self _) (measure_rest_work st s _ hw hfin)
      · simp only [if_neg h1]

/-- `tickIntervalLoop` composition. -/
theorem tickIntervalLoop_comp (st : IntervalSettings) (t1 t2 : Int)
    (h12 : t1 ≤ t2) (s : IntervalState) :
    tickIntervalLoop st (tickIntervalLoop st s t1) t2 =
      tickIntervalLoop st s t2 := by
  rw [tickIntervalLoop]
  exact tickIntervalGo_comp st t1 t2 h12 _ s (Nat.lt_succ_self _)

/-- The catch-up loop ignores `timeRemaining`. -/
theorem tickIntervalGo_timeRemaining (st : IntervalSettings) (now : Int) :
    ∀ f s x, s.running = true →
      tickIntervalGo st now f { s with timeRemaining := x } =
        (if (tickIntervalGo st now f s).running = true
         then { tickIntervalGo st now f s with timeRemaining := x }
         else tickIntervalGo st now f s) := by
  intro f
  induction f with
  | zero => intro s x hrun; simp [tickIntervalGo, hrun]
  | succ f ih =>
    intro s x hrun
    cases hE : s.phaseEndsAt with
    | none => simp [tickIntervalGo, hE, hrun]
    | some e =>
      simp only [tickIntervalGo, hE]
      by_cases h1 : s.running = true ∧ e ≤ now
      · simp only [if_pos h1]
        by_cases hw : s.phase = IPhase.work
        · simp only [if_pos hw]
          exact ih { s with phase := IPhase.rest
                            phaseEndsAt := some (e + st.rest * 1000) } x hrun
        · simp only [if_neg hw]
          by_cases hfin : st.rounds ≤ s.currentRound
          · simp [if_pos hfin, resetIntervalState]
          · simp only [if_neg hfin]
            exact ih { s with currentRound := s.currentRound + 1
                              phase := IPhase.work
                              phaseEndsAt := some (e + st.work * 1000) } x hrun
      · simp only [if_neg h1]
        simp [hrun, hE]

/-- `tickIntervalLoop` ignores `timeRemaining`. -/
theorem tickIntervalLoop_timeRemaining (st : IntervalSettings) (now : Int)
    (s : IntervalState) (x : Int) (hrun : s.running = true) :
    tickIntervalLoop st { s with timeRemaining := x } now =
      (if (tickIntervalLoop st s now).running = true
       then { tickIntervalLoop st s now with timeRemaining := x }
       else tickIntervalLoop st s now) := by
  simp only [tickIntervalLoop]
  exact tickIntervalGo_timeRemaining st now _ s x hrun

/-- A running session that the catch-up loop stops was reset. -/
theorem tickIntervalGo_not_running (st : IntervalSettings) (now : Int) :
    ∀ f s, s.running = true → (tickIntervalGo st now f s).running = false →
      tickIntervalGo st now f s = resetIntervalState := by
  intro f
  induction f with
  | zero =>
    intro s hrun hstop
    simp only [tickIntervalGo] at hstop
    rw [hrun] at hstop
    exact Bool.noConfusion hstop
  | succ f ih =>
    intro s hrun hstop
    cases hE : s.phaseEndsAt with
    | none => simp only [tickIntervalGo, hE] at hstop ⊢; exact absurd hstop (by simp [hrun])
    | some e =>
      simp only [tickIntervalGo, hE] at hstop ⊢
      by_cases h1 : s.running = true ∧ e ≤ now
      · simp only [if_pos h1] at hstop ⊢
        by_cases hw : s.phase = IPhase.work
        · simp only [if_pos hw] at hstop ⊢
          exact ih _ hrun hstop
        · simp only [if_neg hw] at hstop ⊢
          by_cases hfin : st.rounds ≤ s.currentRound
          · simp [if_pos hfin]
          · simp only [if_neg hfin] at hstop ⊢
            exact ih _ hrun hstop
      · simp only [if_neg h1] at hstop
        exact absurd hstop (by simp [hrun])

/-- The catch-up loop only moves the deadline forward (for nonnegative
durations) and keeps it set while still running. -/
theorem tickIntervalGo_endsAt (st : IntervalSettings) (now : Int)
    (hw0 : 0 ≤ st.work) (hr0 : 0 ≤ st.rest) :
    ∀ f s e, s.phaseEndsAt = some e →
      (tickIntervalGo st now f s).running = true →
      ∃ e2, (tickIntervalGo st now f s).phaseEndsAt = some e2 ∧ e ≤ e2 := by
  intro f
  induction f with
  | zero => intro s e hE _; exact ⟨e, by simpa [tickIntervalGo] using hE, le_rfl⟩
  | succ f ih =>
    intro s e hE hrun2
    simp only [tickIntervalGo, hE] at hrun2 ⊢
    by_cases h1 : s.running = true ∧ e ≤ now
    · simp only [if_pos h1] at hrun2 ⊢
      by_cases hw : s.phase = IPhase.work
      · simp only [if_pos hw] at hrun2 ⊢
        obtain ⟨e2, he2, hle⟩ := ih _ (e + st.rest * 1000) rfl hrun2
        exact ⟨e2, he2, by omega⟩
      · simp only [if_neg hw] at hrun2 ⊢
        by_cases hfin : st.rounds ≤ s.currentRound
        · simp only [if_pos hfin] at hrun2
          exact absurd hrun2 (by simp [resetIntervalState])
        · simp only [if_neg hfin] at hrun2 ⊢
          obtain ⟨e2, he2, hle⟩ := ih _ (e + st.work * 1000) rfl hrun2
          exact ⟨e2, he2, by omega⟩
    · simp only [if_neg h1] at hrun2 ⊢
      exact ⟨e, hE, le_rfl⟩

/-- Drift-free deadline arithmetic of the catch-up loop: if the deadline
sits exactly at `t0` plus the milliseconds of session time covered so far,
it still does after any number of catch-up steps — the tick time `now` never
enters the deadline computation. -/
theorem tickIntervalGo_posMs (st : IntervalSettings) (now t0 : Int) :
    ∀ f s, s.phaseEndsAt = some (t0 + intervalPosMs st s) →
      (tickIntervalGo st now f s).running = true →
      (tickIntervalGo st now f s).phaseEndsAt =
        some (t0 + intervalPosMs st (tickIntervalGo st now f s)) := by
  intro f
  induction f with
  | zero => intro s hE _; simpa [tickIntervalGo] using hE
  | succ f ih =>
    intro s hE hrun2
    simp only [tickIntervalGo, hE] at hrun2 ⊢
    by_cases h1 : s.running = true ∧ t0 + intervalPosMs st s ≤ now
    · simp only [if_pos h1] at hrun2 ⊢
      by_cases hw : s.phase = IPhase.work
      · simp only [if_pos hw] at hrun2 ⊢
        refine ih _ ?_ hrun2
        show some (t0 + intervalPosMs st s + st.rest * 1000) = _
        congr 1
        simp [intervalPosMs, hw]
        ring
      · simp only [if_neg hw] at hrun2 ⊢
        by_cases hfin : st.rounds ≤ s.currentRound
        · simp only [if_pos hfin] at hrun2
          exact absurd hrun2 (by simp [resetIntervalState])
        · simp only [if_neg hfin] at hrun2 ⊢
          refine ih _ ?_ hrun2
          show some (t0 + intervalPosMs st s + st.work * 1000) = _
          have hrest : s.phase = IPhase.rest := by
            cases hp : s.phase
            · exact absurd hp hw
            · rfl
          congr 1
          simp [intervalPosMs, hrest]
          ring
    · simp only [if_neg h1] at hrun2 ⊢
      exact hE

/-- A running session that `tickIntervalLoop` stops was reset. -/
theorem tickIntervalLoop_not_running (st : IntervalSettings) (now : Int)
    (s : IntervalState) (hrun : s.running = true)
    (h : (tickIntervalLoop st s now).running = false) :
    tickIntervalLoop st s now = resetIntervalState := by
  simp only [tickIntervalLoop] at h ⊢
  exact tickIntervalGo_not_running st now _ s hrun h

/-- `tickIntervalLoop` keeps a set deadline and only moves it forward. -/
theorem tickIntervalLoop_endsAt (st : IntervalSettings) (now : Int)
    (s : IntervalState) (e : Int) (hw0 : 0 ≤ st.work) (hr0 : 0 ≤ st.rest)
    (hE : s.phaseEndsAt = some e)
    (h : (tickIntervalLoop st s now).running = true) :
    ∃ e2, (tickIntervalLoop st s now).phaseEndsAt = some e2 ∧ e ≤ e2 := by
  simp only [tickIntervalLoop] at h ⊢
  exact tickIntervalGo_endsAt st now hw0 hr0 _ s e hE h

/-- Drift-free deadline arithmetic survives a full `tickInterval` call: the
wrapper only recomputes `timeRemaining`, which the deadline does not read. -/
theorem tickInterval_posMs (st : IntervalSettings) (t0 now : Int)
    (s : IntervalState)
    (hI : s.running = true → s.phaseEndsAt = some (t0 + intervalPosMs st s)) :
    (tickInterval st s now).running = true →
      (tickInterval st s now).phaseEndsAt =
        some (t0 + intervalPosMs st (tickInterval st s now)) := by
  intro hr
  by_cases hrun : s.running = true
  · by_cases htr : jsTruthyOptInt s.phaseEndsAt = true
    · have hE := hI hrun
      have ht : tickInterval st s now =
          (if (tickIntervalLoop st s now).running = true
           then { tickIntervalLoop st s now with
                    timeRemaining := max 0 (jsCeil1000
                      ((tickIntervalLoop st s now).phaseEndsAt.getD 0 - now)) }
           else tickIntervalLoop st s now) := by
        simp [tickInterval, hrun, htr]
      have hloop := tickIntervalGo_posMs st now t0 (intervalMeasure st s + 1) s hE
      rw [ht] at hr ⊢
      by_cases hr2 : (tickIntervalLoop st s now).running = true
      · rw [if_pos hr2] at hr ⊢
        exact hloop hr2
      · rw [if_neg hr2] at hr
        exact absurd hr hr2
    · have heq : tickInterval st s now = s := by simp [tickInterval, htr]
      rw [heq] at hr ⊢
      exact hI hr
  · have hf : s.running = false := by revert hrun; cases s.running <;> simp
    have heq : tickInterval st s now = s := by simp [tickInterval, hf]
    rw [heq] at hr ⊢
    exact hI hr

/-- C1 counterexample: the breathing engine computes the new deadline from
the tick time, not the previous deadline.  In `bStarted` (first deadline
4000 ms, next phase 4 s) a tick at 4310 ms advances to phase 1 but sets the
deadline to 8310 — not `4000 + 4000` as the claim requires. -/
theorem c1_counterexample :
    bStarted.phaseEndsAt = 4000 ∧
    (btick bStarted 4310).phaseIndex = 1 ∧
    durAt bStarted.durations 1 * 1000 = 4000 ∧
    (btick bStarted 4310).phaseEndsAt = 8310 ∧
    (btick bStarted 4310).phaseEndsAt ≠
      bStarted.phaseEndsAt + durAt bStarted.durations 1 * 1000 := by decide

/-- C1 amended: the timer app's interval engine is drift-free exactly as
claimed.  After a fresh start at `t0` and an arbitrary sequence of tick
times (any cadence, any gaps), a still-running state's deadline is exactly
`t0 + intervalPosMs` — `t0` plus the milliseconds of covered session time,
a pure function of the reached round and phase with no contribution from
the observed tick times.  (The breathing engine instead re-anchors each
deadline at the tick time, see the counterexample.) -/
theorem c1_theorem (st : IntervalSettings) (t0 : Int) (ts : List Int)
    (h : (ts.foldl (tickInterval st)
        (startInterval st resetIntervalState t0)).running = true) :
    (ts.foldl (tickInterval st) (startInterval st resetIntervalState t0)).phaseEndsAt
      = some (t0 + intervalPosMs st
          (ts.foldl (tickInterval st) (startInterval st resetIntervalState t0))) := by
  have start : (startInterval st resetIntervalState t0).running = true →
      (startInterval st resetIntervalState t0).phaseEndsAt =
        some (t0 + intervalPosMs st (startInterval st resetIntervalState t0)) := by
    intro _
    simp [startInterval, resetIntervalState, intervalPosMs]
  have main : ∀ (l : List Int) (s : IntervalState),
      (s.running = true → s.phaseEndsAt = some (t0 + intervalPosMs st s)) →
      ((l.foldl (tickInterval st) s).running = true →
        (l.foldl (tickInterval st) s).phaseEndsAt =
          some (t0 + intervalPosMs st (l.foldl (tickInterval st) s))) := by
    intro l
    induction l with
    | nil => intro s hI; exact hI
    | cons t l ih => intro s hI; exact ih _ (tickInterval_posMs st t0 t s hI)
  exact main ts _ start h

/-- C1 witness: work = rest = 4 s, 2 rounds, started at 0, ticked at the
irregular times 4090, 8400, 12240; the resulting deadline is exact. -/
theorem c1_witness :
    (([4090, 8400, 12240] : List Int).foldl (tickInterval ⟨4, 4, 2⟩)
        (startInterval ⟨4, 4, 2⟩ resetIntervalState 0)).phaseEndsAt
      = some (0 + intervalPosMs ⟨4, 4, 2⟩
          (([4090, 8400, 12240] : List Int).foldl (tickInterval ⟨4, 4, 2⟩)
            (startInterval ⟨4, 4, 2⟩ resetIntervalState 0))) :=
  c1_theorem ⟨4, 4, 2⟩ 0 [4090, 8400, 12240] (by decide)

/-- C2 counterexample: the breathing engine does not catch up.  For the
spec's own scenario — four 4 s phases, 2 cycles (32 s total), a single tick
40 000 ms after start — the session is still active in phase 1 of cycle 1
(the new deadline is even pushed to 44 000 ms), not completed. -/
theorem c2_counterexample :
    bStarted.sessionEndsAt = 32000 ∧
    (btick bStarted 40000).active = true ∧
    (btick bStarted 40000).cycle = 1 ∧
    (btick bStarted 40000).phaseIndex = 1 ∧
    (btick bStarted 40000).phaseEndsAt = 44000 := by decide

/-- C2 amended: the timer app's interval engine does catch up through all
missed boundaries in one `tickInterval` call: with work = rest = 4 s and
2 rounds (16 s total), a single tick at start + 40 000 ms runs the
catch-up loop to the end of round 2 and finishes the session
(`resetInterval`). -/
theorem c2_theorem :
    tickInterval ⟨4, 4, 2⟩ (startInterval ⟨4, 4, 2⟩ resetIntervalState 0) 40000
      = resetIntervalState ∧
    (tickInterval ⟨4, 4, 2⟩ (startInterval ⟨4, 4, 2⟩ resetIntervalState 0) 40000).running
      = false := by decide

/-- C4 counterexample: the timer interval engine does not resume at
`resume_now + (d - e)`.  Pausing 500 ms into a 30 s work phase snapshots
`Math.ceil(29500 / 1000) = 30` whole seconds, so resuming at `t = 100000`
yields deadline 130 000, not `100000 + 29500 = 129500`. -/
theorem c4_counterexample :
    (startInterval ⟨30, 10, 8⟩
        (pauseInterval (startInterval ⟨30, 10, 8⟩ resetIntervalState 0) 500)
        100000).phaseEndsAt = some 130000 ∧
    (startInterval ⟨30, 10, 8⟩
        (pauseInterval (startInterval ⟨30, 10, 8⟩ resetIntervalState 0) 500)
        100000).phaseEndsAt ≠ some (100000 + (30 * 1000 - 500)) := by decide

/-- C4 amended: the breathing engine keeps millisecond precision: pausing a
running session at time `t` and resuming at any later (or earlier) time `t2`
gives `phaseEndsAt = t2 + (old phaseEndsAt - t)` and
`sessionEndsAt = t2 + (old sessionEndsAt - t)`; in particular the remaining
session time after resume, `sessionEndsAt - t2`, does not depend on how long
the pause lasted.  (The timer engines resume from a whole-second snapshot
instead, see the counterexample.) -/
theorem c4_theorem (s : BSession) (t t2 : Int)
    (h1 : s.active = true) (h2 : s.paused = false)
    (h3 : t ≤ s.phaseEndsAt) (h4 : t ≤ s.sessionEndsAt) :
    (resumeSession (pauseSession s t) t2).phaseEndsAt = t2 + (s.phaseEndsAt - t) ∧
    (resumeSession (pauseSession s t) t2).sessionEndsAt = t2 + (s.sessionEndsAt - t) ∧
    (resumeSession (pauseSession s t) t2).sessionEndsAt - t2 = s.sessionEndsAt - t := by
  simp [pauseSession, resumeSession, h1, h2]
  omega

/-- C4 witness: the breathing session `bStarted` paused 1500 ms in and
resumed after a very long pause. -/
theorem c4_witness :
    (resumeSession (pauseSession bStarted 1500) 999999).phaseEndsAt
      = 999999 + (bStarted.phaseEndsAt - 1500) ∧
    (resumeSession (pauseSession bStarted 1500) 999999).sessionEndsAt
      = 999999 + (bStarted.sessionEndsAt - 1500) ∧
    (resumeSession (pauseSession bStarted 1500) 999999).sessionEndsAt - 999999
      = bStarted.sessionEndsAt - 1500 :=
  c4_theorem bStarted 1500 999999 (by decide) (by decide) (by decide) (by decide)

/-- When some phase duration is positive, `findFirstPhaseIndex` finds the
first such phase. -/
theorem hasActive_findFirst (d : BDurations) (h : hasActiveDuration d = true) :
    findFirstPhaseIndex d ≠ -1 ∧ 0 < durAt d (findFirstPhaseIndex d) ∧
      0 ≤ findFirstPhaseIndex d ∧ findFirstPhaseIndex d < 4 := by
  by_cases h1 : 0 < d.inhale
  · simp [findFirstPhaseIndex, durAt, h1]
  · by_cases h2 : 0 < d.holdIn
    · simp [findFirstPhaseIndex, durAt, h1, h2]
    · by_cases h3 : 0 < d.exhale
      · simp [findFirstPhaseIndex, durAt, h1, h2, h3]
      · by_cases h4 : 0 < d.holdOut
        · simp [findFirstPhaseIndex, durAt, h1, h2, h3, h4]
        · simp [hasActiveDuration, h1, h2, h3, h4] at h

/-- C6: the breathing `startSession()` contract.  If no phase duration is
positive, or the total session length is not positive, it fails (an early
return with a user-facing hint) and the session is untouched; otherwise it
returns a running session on cycle 1 whose current phase is the first phase
with positive duration, with both absolute deadlines computed from `now`. -/
theorem c6_theorem (d : BDurations) (cycles : Nat) (now : Int) :
    (hasActiveDuration d = false → startSession d cycles now = none) ∧
    ((d.inhale + d.holdIn + d.exhale + d.holdOut) * (cycles : Int) * 1000 ≤ 0 →
      startSession d cycles now = none) ∧
    (hasActiveDuration d = true →
      0 < (d.inhale + d.holdIn + d.exhale + d.holdOut) * (cycles : Int) * 1000 →
      ∃ s, startSession d cycles now = some s ∧
        s.active = true ∧ s.paused = false ∧ s.cycle = 1 ∧
        s.totalCycles = cycles ∧ s.phaseIndex = findFirstPhaseIndex d ∧
        0 < durAt d s.phaseIndex ∧
        s.phaseEndsAt = now + durAt d (findFirstPhaseIndex d) * 1000 ∧
        s.sessionEndsAt =
          now + (d.inhale + d.holdIn + d.exhale + d.holdOut) * (cycles : Int) * 1000) := by
  refine ⟨?_, ?_, ?_⟩
  · intro h
    simp [startSession, h]
  · intro h
    cases hA : hasActiveDuration d
    · simp [startSession, hA]
    · simp [startSession, hA, h]
  · intro hA hpos
    obtain ⟨hne, hdpos, hge, hlt⟩ := hasActive_findFirst d hA
    have hn : ¬((d.inhale + d.holdIn + d.exhale + d.holdOut) * (cycles : Int) * 1000 ≤ 0) :=
      not_le.mpr hpos
    have hs : startSession d cycles now =
        some (enterPhase
          { createIdleSession with
              active := true, totalCycles := cycles, cycle := 1
              durations := d
              sessionEndsAt :=
                now + (d.inhale + d.holdIn + d.exhale + d.holdOut) * (cycles : Int) * 1000 }
          (findFirstPhaseIndex d) now) := by
      simp [startSession, hA, hn, hne]
    exact ⟨_, hs, rfl, rfl, rfl, rfl, rfl, hdpos, rfl, rfl⟩

/-- C6 witness: an all-zero configuration fails to start; the configuration
with only a 5 s exhale and 2 cycles starts on the exhale phase. -/
theorem c6_witness :
    startSession ⟨0, 0, 0, 0⟩ 5 100 = none ∧
    (∃ s, startSession ⟨0, 0, 5, 0⟩ 2 100 = some s ∧
      s.active = true ∧ s.paused = false ∧ s.cycle = 1 ∧
      s.totalCycles = 2 ∧ s.phaseIndex = findFirstPhaseIndex ⟨0, 0, 5, 0⟩ ∧
      0 < durAt ⟨0, 0, 5, 0⟩ s.phaseIndex ∧
      s.phaseEndsAt = 100 + durAt ⟨0, 0, 5, 0⟩ (findFirstPhaseIndex ⟨0, 0, 5, 0⟩) * 1000 ∧
      s.sessionEndsAt = 100 + ((0 : Int) + 0 + 5 + 0) * ((2 : Nat) : Int) * 1000) :=
  ⟨(c6_theorem ⟨0, 0, 0, 0⟩ 5 100).1 (by decide),
   (c6_theorem ⟨0, 0, 5, 0⟩ 2 100).2.2 (by decide) (by decide)⟩

/-- `tick()` does nothing on an inactive session. -/
theorem btick_inactive (s : BSession) (now : Int) (h : s.active = false) :
    btick s now = s := by
  simp [btick, h]

/-- An active post-tick session was active before the tick. -/
theorem btick_active (s : BSession) (now : Int)
    (h : (btick s now).active = true) : s.active = true := by
  by_contra hc
  have hf : s.active = false := by revert hc; cases s.active <;> simp
  rw [btick_inactive s now hf, hf] at h
  exact Bool.noConfusion h

/-- `tick()` never changes the session deadline while the session stays
active (it is only cleared by completing, which deactivates). -/
theorem btick_sessionEndsAt (s : BSession) (now : Int)
    (h : (btick s now).active = true) :
    (btick s now).sessionEndsAt = s.sessionEndsAt := by
  by_cases h1 : (!s.active || s.paused) = true
  · simp [btick, h1]
  · have h1f : (!s.active || s.paused) = false := by
      revert h1; cases (!s.active || s.paused) <;> simp
    by_cases h2 : s.phaseEndsAt ≤ now
    · cases hN : getNextPhase s.durations s.totalCycles s.cycle s.phaseIndex with
      | none =>
        have hbt : btick s now = createIdleSession := by
          simp [btick, h1f, h2, hN]
        rw [hbt] at h
        exact absurd h (by decide)
      | some ci =>
        obtain ⟨c, i⟩ := ci
        have hbt : btick s now = enterPhase { s with cycle := c } i now := by
          simp [btick, h1f, h2, hN]
        rw [hbt]
        simp [enterPhase]
    · simp [btick, h1f, h2]

/-- Every displayed session-remaining value is nonnegative. -/
theorem sessionDisplayTrace_nonneg (ts : List Int) :
    ∀ (s : BSession), ∀ v ∈ sessionDisplayTrace s ts, 0 ≤ v := by
  induction ts with
  | nil => intro s v hv; simp [sessionDisplayTrace] at hv
  | cons t rest ih =>
    intro s v hv
    simp only [sessionDisplayTrace, List.mem_cons] at hv
    rcases hv with rfl | hv
    · exact le_max_left 0 _
    · exact ih _ v hv

/-- Every displayed phase-remaining value is nonnegative. -/
theorem phaseDisplayTrace_nonneg (ts : List Int) :
    ∀ (s : BSession), ∀ v ∈ phaseDisplayTrace s ts, 0 ≤ v := by
  induction ts with
  | nil => intro s v hv; simp [phaseDisplayTrace] at hv
  | cons t rest ih =>
    intro s v hv
    simp only [phaseDisplayTrace, List.mem_cons] at hv
    rcases hv with rfl | hv
    · exact le_max_left 0 _
    · exact ih _ v hv

/-- Activity of the final state propagates back through a tick sequence. -/
theorem foldl_btick_active (ts : List Int) :
    ∀ (s : BSession), (ts.foldl btick s).active = true → s.active = true := by
  induction ts with
  | nil => intro s h; exact h
  | cons t rest ih => intro s h; exact btick_active s t (ih (btick s t) h)

/-- The displayed session-remaining values form a nonincreasing chain along
any nondecreasing tick sequence that keeps the session active. -/
theorem sessionDisplayTrace_chain (ts : List Int) :
    ∀ (s : BSession), ts.Chain' (· ≤ ·) → (ts.foldl btick s).active = true →
      (sessionDisplayTrace s ts).Chain' (· ≥ ·) := by
  induction ts with
  | nil => intro s _ _; simp [sessionDisplayTrace]
  | cons t1 rest ih =>
    intro s hc hact
    cases rest with
    | nil => simp [sessionDisplayTrace]
    | cons t2 rest2 =>
      have hc2 := List.chain'_cons.mp hc
      simp only [sessionDisplayTrace]
      rw [List.chain'_cons]
      constructor
      · have hact2 : (btick (btick s t1) t2).active = true :=
          foldl_btick_active rest2 _ hact
        have hend : (btick (btick s t1) t2).sessionEndsAt =
            (btick s t1).sessionEndsAt := btick_sessionEndsAt _ t2 hact2
        simp only [displayedSessionSeconds, hend, jsCeil1000]
        have h12 : t1 ≤ t2 := hc2.1
        omega
      · exact ih (btick s t1) hc2.2 hact

/-- C7 counterexample: the reported phase-remaining value is not
non-increasing across a non-decreasing tick sequence.  In `bStarted`,
ticking at 3900 ms shows 1 s of phase left; ticking again at 4000 ms
crosses the boundary and shows 4 s — an increase. -/
theorem c7_counterexample :
    displayedPhaseSeconds (btick bStarted 3900) 3900 = 1 ∧
    (btick (btick bStarted 3900) 4000).active = true ∧
    displayedPhaseSeconds (btick (btick bStarted 3900) 4000) 4000 = 4 := by decide

/-- C7 amended: along any tick sequence with non-decreasing times that
leaves the breathing session active, the reported session-remaining values
are non-increasing and never negative, and the reported phase-remaining
values are never negative (the phase-remaining value resets upward to the
next phase's duration at each boundary, see the counterexample). -/
theorem c7_theorem (s : BSession) (ts : List Int) (hc : ts.Chain' (· ≤ ·))
    (hact : (ts.foldl btick s).active = true) :
    (∀ v ∈ sessionDisplayTrace s ts, 0 ≤ v) ∧
    (∀ v ∈ phaseDisplayTrace s ts, 0 ≤ v) ∧
    (sessionDisplayTrace s ts).Chain' (· ≥ ·) :=
  ⟨sessionDisplayTrace_nonneg ts s, phaseDisplayTrace_nonneg ts s,
    sessionDisplayTrace_chain ts s hc hact⟩

/-- C7 witness: `bStarted` ticked at 1000, 2000 and 5000 ms (the last tick
crosses into the second phase and the session stays active). -/
theorem c7_witness :
    (∀ v ∈ sessionDisplayTrace bStarted [1000, 2000, 5000], 0 ≤ v) ∧
    (∀ v ∈ phaseDisplayTrace bStarted [1000, 2000, 5000], 0 ≤ v) ∧
    (sessionDisplayTrace bStarted [1000, 2000, 5000]).Chain' (· ≥ ·) :=
  c7_theorem bStarted [1000, 2000, 5000] (by simp [List.chain'_cons]) (by decide)

/-- Only indices 0..3 can carry a positive duration. -/
theorem durAt_pos_bounds (d : BDurations) (i : Int) (h : 0 < durAt d i) :
    0 ≤ i ∧ i < 4 := by
  simp only [durAt] at h
  split_ifs at h with h0 h1 h2 h3
  · omega
  · omega
  · omega
  · omega
  · exact absurd h (lt_irrefl 0)

/-- Whatever the search returns points at a positive-duration phase within
the cycle budget. -/
theorem nextSearch_some (d : BDurations) (tc c : Nat) (i : Int) :
    ∀ (fuel step : Nat) (c2 : Nat) (i2 : Int),
      nextSearch d tc c i step fuel = some (c2, i2) →
      0 < durAt d i2 ∧ c2 ≤ tc := by
  intro fuel
  induction fuel with
  | zero => intro step c2 i2 h; simp [nextSearch] at h
  | succ f ih =>
    intro step c2 i2 h
    simp only [nextSearch] at h
    by_cases hov : tc < (wrapPhase (i + step + 1) c).2
    · simp [hov] at h
    · simp only [if_neg hov] at h
      by_cases hpos : 0 < durAt d (wrapPhase (i + step + 1) c).1
      · simp only [if_pos hpos, Option.some.injEq, Prod.mk.injEq] at h
        obtain ⟨hc2, hi2⟩ := h
        subst hc2; subst hi2
        exact ⟨hpos, by omega⟩
      · simp only [if_neg hpos] at h
        exact ih (step + 1) c2 i2 h

/-- With at least one active phase, every window of four consecutive search
steps contains a deciding step (the first active phase's residue is hit, if
no overflow ends the search earlier). -/
theorem search_decides (d : BDurations) (tc c : Nat) (i : Int)
    (hA : hasActiveDuration d = true) (hi : -1 ≤ i) (step : Nat) :
    ∃ s0, s0 < 4 ∧ searchDecides d tc c i (step + s0) := by
  obtain ⟨hne, hdpos, hge, hlt⟩ := hasActive_findFirst d hA
  set n : Int := i + (step : Int) + 1 with hn
  have hn0 : 0 ≤ n := by omega
  have hr0 : 0 ≤ (findFirstPhaseIndex d - n) % 4 :=
    Int.emod_nonneg _ (by norm_num)
  have hr4 : (findFirstPhaseIndex d - n) % 4 < 4 :=
    Int.emod_lt_of_pos _ (by norm_num)
  refine ⟨((findFirstPhaseIndex d - n) % 4).toNat, by omega, ?_⟩
  simp only [searchDecides]
  right
  have harg : i + ((step + ((findFirstPhaseIndex d - n) % 4).toNat : Nat) : Int) + 1
      = n + (findFirstPhaseIndex d - n) % 4 := by
    push_cast
    omega
  rw [harg, wrapPhase_spec _ c (by omega)]
  have hmod : (n + (findFirstPhaseIndex d - n) % 4) % 4 = findFirstPhaseIndex d := by
    omega
  simp only [hmod]
  exact hdpos

/-- Once some step within the budget decides, the budget is irrelevant. -/
theorem nextSearch_fuel (d : BDurations) (tc c : Nat) (i : Int) :
    ∀ (m step f g : Nat),
      (∃ s0, s0 < m ∧ searchDecides d tc c i (step + s0)) → m ≤ f → m ≤ g →
      nextSearch d tc c i step f = nextSearch d tc c i step g := by
  intro m
  induction m with
  | zero =>
    intro step f g hdec _ _
    obtain ⟨s0, hs0, _⟩ := hdec
    omega
  | succ m ih =>
    intro step f g hdec hf hg
    obtain ⟨f, rfl⟩ : ∃ f2, f = f2 + 1 := ⟨f - 1, by omega⟩
    obtain ⟨g, rfl⟩ : ∃ g2, g = g2 + 1 := ⟨g - 1, by omega⟩
    simp only [nextSearch]
    by_cases hov : tc < (wrapPhase (i + step + 1) c).2
    · simp [hov]
    · simp only [if_neg hov]
      by_cases hpos : 0 < durAt d (wrapPhase (i + step + 1) c).1
      · simp [hpos]
      · simp only [if_neg hpos]
        refine ih (step + 1) f g ?_ (by omega) (by omega)
        obtain ⟨s0, hs0, hdc⟩ := hdec
        cases s0 with
        | zero =>
          simp only [Nat.add_zero, searchDecides] at hdc
          rcases hdc with h | h
          · exact absurd h hov
          · exact absurd h hpos
        | succ s1 =>
          refine ⟨s1, by omega, ?_⟩
          have harg : step + 1 + s1 = step + (s1 + 1) := by omega
          rw [harg]
          exact hdc

/-- A started session points at a positive-duration phase in range. -/
theorem startSession_inv (d : BDurations) (cycles : Nat) (now : Int)
    (s : BSession) (h : startSession d cycles now = some s)
    (hact : s.active = true) :
    0 ≤ s.phaseIndex ∧ s.phaseIndex < 4 ∧
      0 < durAt s.durations s.phaseIndex := by
  cases hA : hasActiveDuration d with
  | false => simp [startSession, hA] at h
  | true =>
    by_cases ht : (d.inhale + d.holdIn + d.exhale + d.holdOut) * (cycles : Int) * 1000 ≤ 0
    · simp [startSession, hA, ht] at h
    · obtain ⟨hne, hdpos, hge, hlt⟩ := hasActive_findFirst d hA
      simp only [startSession, hA, Bool.not_true, Bool.false_eq_true, if_false,
        if_neg ht, if_neg hne, Option.some.injEq] at h
      subst h
      simpa [enterPhase] using ⟨hge, hlt, hdpos⟩

/-- Ticking preserves the positive-duration-phase invariant. -/
theorem btick_inv (s : BSession) (now : Int)
    (hI : s.active = true → 0 ≤ s.phaseIndex ∧ s.phaseIndex < 4 ∧
      0 < durAt s.durations s.phaseIndex) :
    (btick s now).active = true →
      0 ≤ (btick s now).phaseIndex ∧ (btick s now).phaseIndex < 4 ∧
        0 < durAt (btick s now).durations (btick s now).phaseIndex := by
  intro hact
  have hsa := btick_active s now hact
  by_cases h1 : (!s.active || s.paused) = true
  · have heq : btick s now = s := by simp [btick, h1]
    rw [heq]
    exact hI hsa
  · have h1f : (!s.active || s.paused) = false := by
      revert h1; cases (!s.active || s.paused) <;> simp
    by_cases h2 : s.phaseEndsAt ≤ now
    · cases hN : getNextPhase s.durations s.totalCycles s.cycle s.phaseIndex with
      | none =>
        have heq : btick s now = createIdleSession := by simp [btick, h1f, h2, hN]
        rw [heq] at hact
        exact absurd hact (by decide)
      | some ci =>
        obtain ⟨c, i⟩ := ci
        have heq : btick s now = enterPhase { s with cycle := c } i now := by
          simp [btick, h1f, h2, hN]
        rw [heq]
        have hpos := (nextSearch_some s.durations s.totalCycles s.cycle
          s.phaseIndex 8 0 c i hN).1
        have hb := durAt_pos_bounds _ _ hpos
        simp only [enterPhase]
        exact ⟨hb.1, hb.2, hpos⟩
    · have heq : btick s now = s := by simp [btick, h1f, h2]
      rw [heq]
      exact hI hsa

/-- C8: zero-duration phases are never current, and the bounded search is
complete.  (1) Whatever `getNextPhase` returns is a positive-duration phase
within the cycle budget and in range 0..3.  (2) `startSession` establishes,
and (3) `tick` preserves, the invariant that an active session's
`phaseIndex` is in range and points at a positive-duration phase.  (4) With
at least one active phase, the `2 × phases.length = 8`-step budget of the
search is exhaustive: any larger budget returns the same result. -/
theorem c8_theorem :
    (∀ (d : BDurations) (tc c : Nat) (i : Int) (c2 : Nat) (i2 : Int),
      getNextPhase d tc c i = some (c2, i2) →
        0 < durAt d i2 ∧ 0 ≤ i2 ∧ i2 < 4 ∧ c2 ≤ tc) ∧
    (∀ (d : BDurations) (cycles : Nat) (now : Int) (s : BSession),
      startSession d cycles now = some s → s.active = true →
        0 ≤ s.phaseIndex ∧ s.phaseIndex < 4 ∧
          0 < durAt s.durations s.phaseIndex) ∧
    (∀ (s : BSession) (now : Int),
      (s.active = true → 0 ≤ s.phaseIndex ∧ s.phaseIndex < 4 ∧
        0 < durAt s.durations s.phaseIndex) →
      (btick s now).active = true →
        0 ≤ (btick s now).phaseIndex ∧ (btick s now).phaseIndex < 4 ∧
          0 < durAt (btick s now).durations (btick s now).phaseIndex) ∧
    (∀ (d : BDurations) (tc c : Nat) (i : Int) (k : Nat),
      hasActiveDuration d = true → -1 ≤ i →
        nextSearch d tc c i 0 (8 + k) = getNextPhase d tc c i) := by
  refine ⟨?_, startSession_inv, btick_inv, ?_⟩
  · intro d tc c i c2 i2 h
    have h1 := nextSearch_some d tc c i 8 0 c2 i2 h
    have h2 := durAt_pos_bounds d i2 h1.1
    exact ⟨h1.1, h2.1, h2.2, h1.2⟩
  · intro d tc c i k hA hi
    exact nextSearch_fuel d tc c i 4 0 (8 + k) 8
      (search_decides d tc c i hA hi 0) (by omega) (by omega)

/-- C8 witness: the spec's own 4-7-8-style list `⟨4, 0, 4, 0⟩` with two
cycles; the search from the exhale phase of cycle 1 skips the zero-duration
holds straight to cycle 2's inhale, started sessions and ticks keep the
invariant, and a bigger budget (13) agrees with the coded budget 8. -/
theorem c8_witness :
    (0 < durAt ⟨4, 0, 4, 0⟩ 0 ∧ 0 ≤ (0 : Int) ∧ (0 : Int) < 4 ∧ 2 ≤ 2) ∧
    (0 ≤ ((startSession ⟨4, 0, 4, 0⟩ 2 0).getD createIdleSession).phaseIndex ∧
      ((startSession ⟨4, 0, 4, 0⟩ 2 0).getD createIdleSession).phaseIndex < 4 ∧
      0 < durAt ((startSession ⟨4, 0, 4, 0⟩ 2 0).getD createIdleSession).durations
        ((startSession ⟨4, 0, 4, 0⟩ 2 0).getD createIdleSession).phaseIndex) ∧
    (0 ≤ (btick ((startSession ⟨4, 0, 4, 0⟩ 2 0).getD createIdleSession) 4000).phaseIndex ∧
      (btick ((startSession ⟨4, 0, 4, 0⟩ 2 0).getD createIdleSession) 4000).phaseIndex < 4 ∧
      0 < durAt (btick ((startSession ⟨4, 0, 4, 0⟩ 2 0).getD createIdleSession) 4000).durations
        (btick ((startSession ⟨4, 0, 4, 0⟩ 2 0).getD createIdleSession) 4000).phaseIndex) ∧
    nextSearch ⟨4, 0, 4, 0⟩ 2 1 2 0 (8 + 5) = getNextPhase ⟨4, 0, 4, 0⟩ 2 1 2 :=
  ⟨c8_theorem.1 ⟨4, 0, 4, 0⟩ 2 1 2 2 0 (by decide),
   c8_theorem.2.1 ⟨4, 0, 4, 0⟩ 2 0 _ (by decide) (by decide),
   c8_theorem.2.2.1 _ 4000 (fun _ => by decide) (by decide),
   c8_theorem.2.2.2 ⟨4, 0, 4, 0⟩ 2 1 2 5 (by decide) (by decide)⟩

/-- An extra earlier tick never changes where a running countdown ends up:
`tickCountdown` at `t1` then `t2` equals `tickCountdown` at `t2` alone. -/
theorem tickCountdown_comp (s : CountdownState) (e t1 t2 : Int)
    (h12 : t1 ≤ t2) (hrun : s.running = true) (hE : s.endAt = some e)
    (he : 0 < e) :
    tickCountdown (tickCountdown s t1) t2 = tickCountdown s t2 := by
  have htr : jsTruthyOptInt s.endAt = true := by
    simp [jsTruthyOptInt, hE]
    omega
  have htre : jsTruthyOptInt (some e) = true := by
    simp [jsTruthyOptInt]
    omega
  by_cases hc1 : max 0 (jsCeil1000 (e - t1)) ≤ 0
  · have hc2 : max 0 (jsCeil1000 (e - t2)) ≤ 0 := by
      simp only [jsCeil1000] at hc1 ⊢
      omega
    have h1 : tickCountdown s t1 =
        { s with timeRemaining := max 0 (jsCeil1000 (e - t1))
                 running := false, endAt := none
                 lastCompleted := s.totalTime, done := true } := by
      simp [tickCountdown, hrun, htr, htre, hE, hc1]
    have h2 : tickCountdown s t2 =
        { s with timeRemaining := max 0 (jsCeil1000 (e - t2))
                 running := false, endAt := none
                 lastCompleted := s.totalTime, done := true } := by
      simp [tickCountdown, hrun, htr, htre, hE, hc2]
    rw [h1, h2]
    simp only [tickCountdown, Bool.false_and, Bool.false_eq_true, if_false]
    simp only [jsCeil1000] at hc1 hc2 ⊢
    congr 1
    omega
  · have h1 : tickCountdown s t1 =
        { s with timeRemaining := max 0 (jsCeil1000 (e - t1)) } := by
      simp [tickCountdown, hrun, htr, htre, hE, hc1]
    rw [h1]
    simp [tickCountdown, hrun, htr, htre, hE]

/-- An extra earlier tick never changes where a running interval session
ends up: `tickInterval` at `t1` then `t2` equals `tickInterval` at `t2`. -/
theorem tickInterval_comp (st : IntervalSettings) (s : IntervalState)
    (e t1 t2 : Int) (h12 : t1 ≤ t2) (hw0 : 0 < st.work) (hr0 : 0 < st.rest)
    (hrun : s.running = true) (hE : s.phaseEndsAt = some e) (he : 0 < e) :
    tickInterval st (tickInterval st s t1) t2 = tickInterval st s t2 := by
  have htr : jsTruthyOptInt s.phaseEndsAt = true := by
    simp [jsTruthyOptInt, hE]
    omega
  have ht1 : tickInterval st s t1 =
      (if (tickIntervalLoop st s t1).running = true
       then { tickIntervalLoop st s t1 with
                timeRemaining := max 0 (jsCeil1000
                  ((tickIntervalLoop st s t1).phaseEndsAt.getD 0 - t1)) }
       else tickIntervalLoop st s t1) := by
    simp [tickInterval, hrun, htr]
  have ht2 : tickInterval st s t2 =
      (if (tickIntervalLoop st s t2).running = true
       then { tickIntervalLoop st s t2 with
                timeRemaining := max 0 (jsCeil1000
                  ((tickIntervalLoop st s t2).phaseEndsAt.getD 0 - t2)) }
       else tickIntervalLoop st s t2) := by
    simp [tickInterval, hrun, htr]
  by_cases hr1 : (tickIntervalLoop st s t1).running = true
  · obtain ⟨e1, hE1, hle1⟩ := tickIntervalLoop_endsAt st t1 s e
      (le_of_lt hw0) (le_of_lt hr0) hE hr1
    have he1 : 0 < e1 := lt_of_lt_of_le he hle1
    rw [ht1, if_pos hr1]
    have htr1 : jsTruthyOptInt (tickIntervalLoop st s t1).phaseEndsAt = true := by
      simp [jsTruthyOptInt, hE1]
      omega
    have hout : tickInterval st
        { tickIntervalLoop st s t1 with
            timeRemaining := max 0 (jsCeil1000
              ((tickIntervalLoop st s t1).phaseEndsAt.getD 0 - t1)) } t2 =
        (if (tickIntervalLoop st
              { tickIntervalLoop st s t1 with
                  timeRemaining := max 0 (jsCeil1000
                    ((tickIntervalLoop st s t1).phaseEndsAt.getD 0 - t1)) } t2).running = true
         then { tickIntervalLoop st
                  { tickIntervalLoop st s t1 with
                      timeRemaining := max 0 (jsCeil1000
                        ((tickIntervalLoop st s t1).phaseEndsAt.getD 0 - t1)) } t2 with
                  timeRemaining := max 0 (jsCeil1000
                    ((tickIntervalLoop st
                      { tickIntervalLoop st s t1 with
                          timeRemaining := max 0 (jsCeil1000
                            ((tickIntervalLoop st s t1).phaseEndsAt.getD 0 - t1)) } t2).phaseEndsAt.getD 0 - t2)) }
         else tickIntervalLoop st
                { tickIntervalLoop st s t1 with
                    timeRemaining := max 0 (jsCeil1000
                      ((tickIntervalLoop st s t1).phaseEndsAt.getD 0 - t1)) } t2) := by
      simp [tickInterval, hr1, htr1]
    rw [hout,
      tickIntervalLoop_timeRemaining st t2 (tickIntervalLoop st s t1) _ hr1,
      tickIntervalLoop_comp st t1 t2 h12 s, ht2]
    by_cases hr3 : (tickIntervalLoop st s t2).running = true
    · simp [hr3]
    · simp [hr3]
  · have hr1f : (tickIntervalLoop st s t1).running = false := by
      revert hr1; cases (tickIntervalLoop st s t1).running <;> simp
    have hreset := tickIntervalLoop_not_running st t1 s hrun hr1f
    rw [ht1, if_neg hr1, hreset]
    have hresout : tickInterval st resetIntervalState t2 = resetIntervalState := by
      simp [tickInterval, resetIntervalState]
    rw [hresout, ht2]
    have h2 : tickIntervalLoop st s t2 = resetIntervalState := by
      rw [← tickIntervalLoop_comp st t1 t2 h12 s, hreset, tickIntervalLoop_reset]
    simp [h2, resetIntervalState]

/-- A valid running interval snapshot survives capture-to-JSON and the
`loadData` validation unchanged. -/
theorem parse_capture_interval (s : IntervalState) (e : Int)
    (hrun : s.running = true) (hp : s.paused = false)
    (hcr : 0 ≤ s.currentRound) (htr : 0 ≤ s.timeRemaining)
    (hE : s.phaseEndsAt = some e) :
    parseIntervalRuntime (captureIntervalJson s) = some s := by
  obtain ⟨run, pau, cr, ph, tr, pe⟩ := s
  simp only at hrun hp hcr htr hE
  subst hrun; subst hp; subst hE
  cases ph <;>
    (simp [captureIntervalJson, parseIntervalRuntime, jsGet, List.find?,
       jsParseIntOpt, jsParseIntVal, jsFiniteNum]
     omega)

/-- A valid running countdown snapshot survives capture-to-JSON and the
`loadData` validation unchanged. -/
theorem parse_capture_countdown (s : CountdownState) (e : Int)
    (hrun : s.running = true) (hp : s.paused = false)
    (htr : 0 ≤ s.timeRemaining) (htt : 0 ≤ s.totalTime)
    (hE : s.endAt = some e) :
    parseCountdownRuntime (captureCountdownJson s) =
      some ⟨s.running, s.paused, s.timeRemaining, s.totalTime, s.endAt, s.done⟩ := by
  obtain ⟨run, pau, tr, tt, en, dn, lc⟩ := s
  simp only at hrun hp htr htt hE
  subst hrun; subst hp; subst hE
  cases dn <;>
    (simp [captureCountdownJson, parseCountdownRuntime, jsGet, List.find?,
       jsParseIntOpt, jsParseIntVal, jsFiniteNum]
     omega)

/-- Restoring a valid running interval snapshot reproduces it exactly. -/
theorem restoreInterval_id (s : IntervalState) (e : Int)
    (hrun : s.running = true) (hp : s.paused = false)
    (hcr : 0 ≤ s.currentRound) (htr : 0 ≤ s.timeRemaining)
    (hE : s.phaseEndsAt = some e) (s0 : IntervalState) :
    restoreInterval (some s) s0 = s := by
  obtain ⟨run, pau, cr, ph, tr, pe⟩ := s
  simp only at hrun hp hcr htr hE
  subst hrun; subst hp; subst hE
  simp [restoreInterval]
  omega

/-- Restoring a valid running countdown snapshot reproduces its fields (the
`done` class is re-added on top of the initial display state and
`lastCompleted` was restored separately). -/
theorem restoreCountdown_eq (r : TCountdownRuntime) (e : Int)
    (hrun : r.running = true) (hp : r.paused = false)
    (htr : 0 ≤ r.timeRemaining) (htt : 0 ≤ r.totalTime)
    (hE : r.endAt = some e) (s0 : CountdownState) :
    restoreCountdown (some r) s0 =
      { running := true, paused := false, timeRemaining := r.timeRemaining
        totalTime := r.totalTime, endAt := r.endAt
        done := s0.done || r.done, lastCompleted := s0.lastCompleted } := by
  obtain ⟨run, pau, tr, tt, en, dn⟩ := r
  simp only at hrun hp htr htt hE
  subst hrun; subst hp; subst hE
  simp [restoreCountdown]
  omega

/-- `loadData` on a full `saveData` object: the interval settings round-trip
(when in range) and the runtime snapshots are exactly the captured ones. -/
theorem timerLoadData_saved (st : IntervalSettings) (si : IntervalState)
    (sc : CountdownState)
    (hw : 5 ≤ st.work) (hw2 : st.work ≤ 3600)
    (hr : 5 ≤ st.rest) (hr2 : st.rest ≤ 3600)
    (hro : 1 ≤ st.rounds) (hro2 : st.rounds ≤ 99)
    (hsi : si.running = true) (hsc : sc.running = true)
    (hlc : 0 ≤ sc.lastCompleted) :
    (timerLoadData (some (timerSavedJson st si sc))).intervalSettings = st ∧
    (timerLoadData (some (timerSavedJson st si sc))).runtimeInterval =
      parseIntervalRuntime (captureIntervalJson si) ∧
    (timerLoadData (some (timerSavedJson st si sc))).runtimeCountdown =
      parseCountdownRuntime (captureCountdownJson sc) ∧
    (timerLoadData (some (timerSavedJson st si sc))).runtimeLastCompleted =
      sc.lastCompleted := by
  refine ⟨?_, ?_, ?_, ?_⟩
  · obtain ⟨w, r, ro⟩ := st
    simp only at hw hw2 hr hr2 hro hro2
    simp [timerLoadData, timerSavedJson, captureRuntimeJson, jsGet, List.find?,
      toBoundedInt, jsParseIntOpt, jsParseIntVal]
    refine ⟨?_, ?_, ?_⟩ <;> omega
  · simp [timerLoadData, timerSavedJson, captureRuntimeJson, jsGet, List.find?,
      captureIntervalJson, hsi, truthy, typeofIsObject, jsIsArray]
  · simp [timerLoadData, timerSavedJson, captureRuntimeJson, jsGet, List.find?,
      captureCountdownJson, hsc, truthy, typeofIsObject, jsIsArray]
  · simp [timerLoadData, timerSavedJson, captureRuntimeJson, jsGet, List.find?,
      jsParseIntOpt, jsParseIntVal]
    omega

/-- `pomCore` ignores the `lastUpdated` save timestamp. -/
theorem pomCore_lastUpdated (s : PomState) (t : Int) :
    pomCore { s with lastUpdated := t } = pomCore s := rfl

/-- `tickTimer` overwrites `timeRemaining` and `lastUpdated` before reading
them, so two active states differing only there tick to the same state. -/
theorem tickTimer_congr (st : PomSettings) (b : PomState) (x y now : Int)
    (hact : b.isActive = true) (htr : jsTruthyOptInt b.targetEndAt = true) :
    tickTimer st { b with timeRemaining := x, lastUpdated := y } now =
      tickTimer st b now := by
  simp [tickTimer, hact, htr]

/-- Completing an expired session yields the same scheduling core whatever
the completion time and the stale `timeRemaining`/`lastUpdated` are. -/
theorem completeSession_core_congr (st : PomSettings) (b : PomState)
    (x1 y1 x2 y2 ta tb T : Int) (hT : b.targetEndAt = some T) (h0 : 0 < T)
    (hta : T ≤ ta) (htb : T ≤ tb) :
    pomCore (completeSessionPom st
        { b with timeRemaining := x1, lastUpdated := y1 } ta) =
      pomCore (completeSessionPom st
        { b with timeRemaining := x2, lastUpdated := y2 } tb) := by
  have htrT : jsTruthyOptInt (some T) = true := by
    simp [jsTruthyOptInt]
    omega
  have hza : max 0 (jsCeil1000 (T - ta)) = 0 := by
    simp [jsCeil1000]
    omega
  have hzb : max 0 (jsCeil1000 (T - tb)) = 0 := by
    simp [jsCeil1000]
    omega
  obtain ⟨tr0, sty, cnt, tws, act, lu0, ten⟩ := b
  simp only at hT
  subst hT
  cases sty <;>
    simp [completeSessionPom, pauseTimer, pomCore, getDurationForSession,
      htrT, hza, hzb]

/-- Pomodoro reload equivalence: restoring a valid running snapshot at load
time and ticking once at `now` reaches the same scheduling core as a merely
suspended in-memory session ticked once at `now`. -/
theorem pom_restore_equiv (st : PomSettings) (s : PomState) (T tL now : Int)
    (hact : s.isActive = true) (hT : s.targetEndAt = some T) (hT0 : 0 < T)
    (hcnt : 1 ≤ s.pomodoroCount) (htws : 0 ≤ s.totalWorkSessions)
    (h12 : tL ≤ now) :
    pomCore (tickTimer st (restorePom st s tL) now) =
      pomCore (tickTimer st s now) := by
  have htrT : jsTruthyOptInt (some T) = true := by
    simp [jsTruthyOptInt]
    omega
  obtain ⟨tr0, sty, cnt, tws, act, lu0, ten⟩ := s
  simp only at hact hT hcnt htws
  subst hact
  subst hT
  have hcx : ¬(cnt < 1) := by omega
  have htx : ¬(tws < 0) := by omega
  by_cases hbig : max 0 (jsCeil1000 (T - tL)) ≤ 0
  · -- the restore-time silent tick already completes the expired session
    have hnow : max 0 (jsCeil1000 (T - now)) ≤ 0 := by
      simp only [jsCeil1000] at hbig ⊢
      omega
    have hres : restorePom st ⟨tr0, sty, cnt, tws, true, lu0, some T⟩ tL =
        { completeSessionPom st
            { timeRemaining := max 0 (jsCeil1000 (T - tL)), sessionType := sty
              pomodoroCount := cnt, totalWorkSessions := tws, isActive := true
              lastUpdated := tL, targetEndAt := some T } tL
          with lastUpdated := tL } := by
      simp [restorePom, loadStatePom, startTimerPom, tickTimer, hcx, htx,
        htrT, hbig]
    have hinact : (restorePom st ⟨tr0, sty, cnt, tws, true, lu0, some T⟩ tL).isActive
        = false := by
      rw [hres]
      simp [completeSessionPom, pauseTimer]
      cases sty <;> simp [getDurationForSession]
    have hLHS : tickTimer st
        (restorePom st ⟨tr0, sty, cnt, tws, true, lu0, some T⟩ tL) now =
        restorePom st ⟨tr0, sty, cnt, tws, true, lu0, some T⟩ tL := by
      simp [tickTimer, hinact]
    have hRHS : tickTimer st ⟨tr0, sty, cnt, tws, true, lu0, some T⟩ now =
        completeSessionPom st
          { timeRemaining := max 0 (jsCeil1000 (T - now)), sessionType := sty
            pomodoroCount := cnt, totalWorkSessions := tws, isActive := true
            lastUpdated := now, targetEndAt := some T } now := by
      simp [tickTimer, htrT, hnow]
    rw [hLHS, hres, hRHS, pomCore_lastUpdated]
    exact completeSession_core_congr st ⟨tr0, sty, cnt, tws, true, lu0, some T⟩
      _ _ _ _ tL now T rfl hT0 (by simp only [jsCeil1000] at hbig; omega)
      (by simp only [jsCeil1000] at hnow; omega)
  · -- the restore-time silent tick leaves the session running
    have hres : restorePom st ⟨tr0, sty, cnt, tws, true, lu0, some T⟩ tL =
        { timeRemaining := max 0 (jsCeil1000 (T - tL)), sessionType := sty
          pomodoroCount := cnt, totalWorkSessions := tws, isActive := true
          lastUpdated := tL, targetEndAt := some T } := by
      simp [restorePom, loadStatePom, startTimerPom, tickTimer, hcx, htx,
        htrT, hbig]
    rw [hres]
    exact congrArg pomCore
      (tickTimer_congr st ⟨tr0, sty, cnt, tws, true, lu0, some T⟩
        (max 0 (jsCeil1000 (T - tL))) tL now rfl (by simpa using htrT))

/-- C3 counterexample: the breathing engine does not persist runtime state
(`saveData` writes only technique, cycles and durations, and the
constructor always builds a fresh idle session), so a reload is not
equivalent to a suspension: the suspended session is still running after a
tick while the reloaded one is idle. -/
theorem c3_counterexample :
    (btick bStarted 10000).active = true ∧
    breathingReloadSession (some (breathingSavedJson ⟨"box", 2, boxDurations⟩))
      = createIdleSession ∧
    (btick (breathingReloadSession
        (some (breathingSavedJson ⟨"box", 2, boxDurations⟩))) 10000).active = false ∧
    btick bStarted 10000 ≠
      btick (breathingReloadSession
        (some (breathingSavedJson ⟨"box", 2, boxDurations⟩))) 10000 := by decide

/-- C3 amended: the reload-equals-suspension guarantee holds for the timer
app's countdown and interval engines (restoring the persisted `saveData`
snapshot, including its silent catch-up tick at load time, then ticking
once at `now` gives exactly the state of a suspended session ticked once at
`now`) and for the pomodoro engine (up to the `lastUpdated` save
timestamp).  It fails for the breathing engine, which persists no session
runtime at all (see the counterexample). -/
theorem c3_theorem
    (sc : CountdownState) (ec : Int) (si : IntervalState) (ei : Int)
    (st : IntervalSettings) (ps : PomState) (T : Int) (pst : PomSettings)
    (tL now : Int) (h12 : tL ≤ now)
    (hc1 : sc.running = true) (hc2 : sc.paused = false)
    (hc3 : 0 ≤ sc.timeRemaining) (hc4 : 0 ≤ sc.totalTime)
    (hc5 : sc.endAt = some ec) (hc6 : 0 < ec) (hc7 : 0 ≤ sc.lastCompleted)
    (hi1 : si.running = true) (hi2 : si.paused = false)
    (hi3 : 0 ≤ si.currentRound) (hi4 : 0 ≤ si.timeRemaining)
    (hi5 : si.phaseEndsAt = some ei) (hi6 : 0 < ei)
    (hs1 : 5 ≤ st.work) (hs2 : st.work ≤ 3600) (hs3 : 5 ≤ st.rest)
    (hs4 : st.rest ≤ 3600) (hs5 : 1 ≤ st.rounds) (hs6 : st.rounds ≤ 99)
    (hp1 : ps.isActive = true) (hp2 : ps.targetEndAt = some T) (hp3 : 0 < T)
    (hp4 : 1 ≤ ps.pomodoroCount) (hp5 : 0 ≤ ps.totalWorkSessions) :
    tickCountdown (timerRestoreCountdown
        (timerLoadData (some (timerSavedJson st si sc)))
        initialCountdownState tL) now
      = tickCountdown sc now ∧
    tickInterval (timerLoadData (some (timerSavedJson st si sc))).intervalSettings
        (timerRestoreInterval
          (timerLoadData (some (timerSavedJson st si sc))).intervalSettings
          (timerLoadData (some (timerSavedJson st si sc))).runtimeInterval
          resetIntervalState tL) now
      = tickInterval st si now ∧
    pomCore (tickTimer pst (restorePom pst ps tL) now) =
      pomCore (tickTimer pst ps now) := by
  obtain ⟨hset, hint, hcd, hlc⟩ :=
    timerLoadData_saved st si sc hs1 hs2 hs3 hs4 hs5 hs6 hi1 hc1 hc7
  refine ⟨?_, ?_, pom_restore_equiv pst ps T tL now hp1 hp2 hp3 hp4 hp5 h12⟩
  · -- countdown engine
    have hmax : max 0 sc.lastCompleted = sc.lastCompleted := by omega
    have hparse := parse_capture_countdown sc ec hc1 hc2 hc3 hc4 hc5
    have hrest : restoreCountdown (some
        (⟨sc.running, sc.paused, sc.timeRemaining, sc.totalTime, sc.endAt,
          sc.done⟩ : TCountdownRuntime))
        { initialCountdownState with lastCompleted := sc.lastCompleted } = sc := by
      rw [restoreCountdown_eq _ ec hc1 hc2 hc3 hc4 hc5]
      obtain ⟨run, pau, tr, tt, en, dn, lc⟩ := sc
      simp only at hc1 hc2
      subst hc1; subst hc2
      simp [initialCountdownState]
    have hr : timerRestoreCountdown (timerLoadData (some (timerSavedJson st si sc)))
        initialCountdownState tL = tickCountdown sc tL := by
      simp only [timerRestoreCountdown, hlc, hmax, hcd, hparse]
      rw [hrest]
      simp [hc1]
    rw [hr]
    exact tickCountdown_comp sc ec tL now h12 hc1 hc5 hc6
  · -- interval engine
    have hparse := parse_capture_interval si ei hi1 hi2 hi3 hi4 hi5
    have hr : timerRestoreInterval
        (timerLoadData (some (timerSavedJson st si sc))).intervalSettings
        (timerLoadData (some (timerSavedJson st si sc))).runtimeInterval
        resetIntervalState tL = tickInterval st si tL := by
      simp only [timerRestoreInterval, hset, hint, hparse,
        restoreInterval_id si ei hi1 hi2 hi3 hi4 hi5, hi1, if_true]
    rw [hr, hset]
    exact tickInterval_comp st si ei tL now h12 (by omega) (by omega) hi1 hi5 hi6

/-- C3 witness: a 60 s countdown and a 30 s/10 s interval session both
started at 0 and a pomodoro work session ending at 1 500 000, restored at
`tL = 100000` (well past the countdown's end) and ticked at
`now = 200000`. -/
theorem c3_witness :
    tickCountdown (timerRestoreCountdown
        (timerLoadData (some (timerSavedJson ⟨30, 10, 8⟩
          (startInterval ⟨30, 10, 8⟩ resetIntervalState 0) cdStarted)))
        initialCountdownState 100000) 200000
      = tickCountdown cdStarted 200000 ∧
    tickInterval (timerLoadData (some (timerSavedJson ⟨30, 10, 8⟩
          (startInterval ⟨30, 10, 8⟩ resetIntervalState 0) cdStarted))).intervalSettings
        (timerRestoreInterval
          (timerLoadData (some (timerSavedJson ⟨30, 10, 8⟩
            (startInterval ⟨30, 10, 8⟩ resetIntervalState 0) cdStarted))).intervalSettings
          (timerLoadData (some (timerSavedJson ⟨30, 10, 8⟩
            (startInterval ⟨30, 10, 8⟩ resetIntervalState 0) cdStarted))).runtimeInterval
          resetIntervalState 100000) 200000
      = tickInterval ⟨30, 10, 8⟩ (startInterval ⟨30, 10, 8⟩ resetIntervalState 0) 200000 ∧
    pomCore (tickTimer pomDefaultSettings
        (restorePom pomDefaultSettings pomStarted 100000) 200000) =
      pomCore (tickTimer pomDefaultSettings pomStarted 200000) :=
  c3_theorem cdStarted 60000 (startInterval ⟨30, 10, 8⟩ resetIntervalState 0)
    30000 ⟨30, 10, 8⟩ pomStarted 1500000 pomDefaultSettings 100000 200000
    (by decide) (by decide) (by decide) (by decide) (by decide) (by decide)
    (by decide) (by decide) (by decide) (by decide) (by decide) (by decide)
    (by decide) (by decide) (by decide) (by decide) (by decide) (by decide)
    (by decide) (by decide) (by decide) (by decide) (by decide) (by decide)
    (by decide)

/-- C10: a snapshot that claims to be running without a numeric absolute
deadline is never restored as running.  For any raw `runtime.interval`
object with `running === true` but a non-number `phaseEndsAt` (`jsFiniteNum`
is `none` exactly of non-number fields), `loadData` validates it and
`restoreRuntimeState` produces `running = false`, a `null` deadline, and
`paused` exactly when the snapshot claimed `paused === true`; likewise for
`runtime.countdown` and `endAt`. -/
theorem c10_theorem (j jc : Json) (s0 : IntervalState) (c0 : CountdownState) :
    (jsGet j "running" = some (.bool true) →
      jsFiniteNum (jsGet j "phaseEndsAt") = none →
      ∃ r, parseIntervalRuntime j = some r ∧
        (restoreInterval (some r) s0).running = false ∧
        (restoreInterval (some r) s0).phaseEndsAt = none ∧
        ((restoreInterval (some r) s0).paused = true ↔
          jsGet j "paused" = some (.bool true))) ∧
    (jsGet jc "running" = some (.bool true) →
      jsFiniteNum (jsGet jc "endAt") = none →
      ∃ r, parseCountdownRuntime jc = some r ∧
        (restoreCountdown (some r) c0).running = false ∧
        (restoreCountdown (some r) c0).endAt = none ∧
        ((restoreCountdown (some r) c0).paused = true ↔
          jsGet jc "paused" = some (.bool true))) := by
  constructor
  · intro h1 h2
    cases j with
    | obj fields =>
      refine ⟨_, rfl, ?_, ?_, ?_⟩
      · simp [restoreInterval, parseIntervalRuntime, h1, h2]
      · simp [restoreInterval, parseIntervalRuntime, h1, h2]
      · cases hp : jsGet (Json.obj fields) "paused" with
        | none => simp [restoreInterval, parseIntervalRuntime, h1, h2, hp]
        | some v =>
          cases v with
          | bool b => cases b <;>
              simp [restoreInterval, parseIntervalRuntime, h1, h2, hp]
          | null => simp [restoreInterval, parseIntervalRuntime, h1, h2, hp]
          | num n => simp [restoreInterval, parseIntervalRuntime, h1, h2, hp]
          | str s => simp [restoreInterval, parseIntervalRuntime, h1, h2, hp]
          | arr xs => simp [restoreInterval, parseIntervalRuntime, h1, h2, hp]
          | obj fs => simp [restoreInterval, parseIntervalRuntime, h1, h2, hp]
    | null => simp [jsGet] at h1
    | bool b => simp [jsGet] at h1
    | num n => simp [jsGet] at h1
    | str s => simp [jsGet] at h1
    | arr xs => simp [jsGet] at h1
  · intro h1 h2
    cases jc with
    | obj fields =>
      refine ⟨_, rfl, ?_, ?_, ?_⟩
      · simp [restoreCountdown, parseCountdownRuntime, h1, h2]
      · simp [restoreCountdown, parseCountdownRuntime, h1, h2]
      · cases hp : jsGet (Json.obj fields) "paused" with
        | none => simp [restoreCountdown, parseCountdownRuntime, h1, h2, hp]
        | some v =>
          cases v with
          | bool b => cases b <;>
              simp [restoreCountdown, parseCountdownRuntime, h1, h2, hp]
          | null => simp [restoreCountdown, parseCountdownRuntime, h1, h2, hp]
          | num n => simp [restoreCountdown, parseCountdownRuntime, h1, h2, hp]
          | str s => simp [restoreCountdown, parseCountdownRuntime, h1, h2, hp]
          | arr xs => simp [restoreCountdown, parseCountdownRuntime, h1, h2, hp]
          | obj fs => simp [restoreCountdown, parseCountdownRuntime, h1, h2, hp]
    | null => simp [jsGet] at h1
    | bool b => simp [jsGet] at h1
    | num n => simp [jsGet] at h1
    | str s => simp [jsGet] at h1
    | arr xs => simp [jsGet] at h1

/-- C10 witness: snapshots claiming `running: true, paused: true` with a
`null` deadline restore as paused-not-running with a cleared deadline. -/
theorem c10_witness :
    (∃ r, parseIntervalRuntime
        (.obj [("running", .bool true), ("paused", .bool true),
               ("phaseEndsAt", .null)]) = some r ∧
      (restoreInterval (some r) resetIntervalState).running = false ∧
      (restoreInterval (some r) resetIntervalState).phaseEndsAt = none ∧
      ((restoreInterval (some r) resetIntervalState).paused = true ↔
        jsGet (.obj [("running", .bool true), ("paused", .bool true),
               ("phaseEndsAt", .null)]) "paused" = some (.bool true))) ∧
    (∃ r, parseCountdownRuntime
        (.obj [("running", .bool true), ("paused", .bool false)]) = some r ∧
      (restoreCountdown (some r) initialCountdownState).running = false ∧
      (restoreCountdown (some r) initialCountdownState).endAt = none ∧
      ((restoreCountdown (some r) initialCountdownState).paused = true ↔
        jsGet (.obj [("running", .bool true), ("paused", .bool false)]) "paused"
          = some (.bool true))) :=
  ⟨(c10_theorem
      (.obj [("running", .bool true), ("paused", .bool true), ("phaseEndsAt", .null)])
      (.obj [("running", .bool true), ("paused", .bool false)])
      resetIntervalState initialCountdownState).1 (by rfl) (by rfl),
   (c10_theorem
      (.obj [("running", .bool true), ("paused", .bool true), ("phaseEndsAt", .null)])
      (.obj [("running", .bool true), ("paused", .bool false)])
      resetIntervalState initialCountdownState).2 (by rfl) (by rfl)⟩

/-- `coerceInt` always lands in `[lo, hi]` when the fallback does. -/
theorem coerceInt_mem (v : Option Json) (lo hi fb : Int) (h1 : lo ≤ fb)
    (h2 : fb ≤ hi) :
    lo ≤ coerceInt v lo hi fb ∧ coerceInt v lo hi fb ≤ hi := by
  unfold coerceInt
  cases h : jsParseIntOpt v with
  | none => exact ⟨h1, h2⟩
  | some n => dsimp only; constructor <;> omega

/-- `toBoundedInt` always lands in `[lo, hi]` when the fallback does. -/
theorem toBoundedInt_mem (v : Option Json) (lo hi fb : Int) (h1 : lo ≤ fb)
    (h2 : fb ≤ hi) :
    lo ≤ toBoundedInt v lo hi fb ∧ toBoundedInt v lo hi fb ≤ hi := by
  unfold toBoundedInt
  cases h : jsParseIntOpt v with
  | none => exact ⟨h1, h2⟩
  | some n => dsimp only; constructor <;> omega

/-- `[...new Set(l)]` only keeps elements of `l`. -/
theorem dedupFirst_subset (l : List Int) (x : Int) (h : x ∈ dedupFirst l) :
    x ∈ l := by
  suffices H : ∀ (l2 : List Int) (acc : List Int),
      x ∈ l2.foldl (fun acc x => if acc.contains x then acc else acc ++ [x]) acc →
      x ∈ acc ∨ x ∈ l2 by
    rcases H l [] h with hx | hx
    · simp at hx
    · exact hx
  intro l2
  induction l2 with
  | nil => intro acc h2; exact Or.inl h2
  | cons y ys ih =>
    intro acc h2
    rcases ih _ h2 with hx | hx
    · dsimp only at hx
      by_cases hc : acc.contains y
      · rw [if_pos hc] at hx
        exact Or.inl hx
      · rw [if_neg hc] at hx
        rcases List.mem_append.mp hx with hx | hx
        · exact Or.inl hx
        · simp at hx
          subst hx
          exact Or.inr (List.mem_cons_self _ _)
    · exact Or.inr (List.mem_cons_of_mem _ hx)

/-- The validated interval runtime has nonnegative counters. -/
theorem parseIntervalRuntime_bounds (j : Json) (r : IntervalState)
    (h : parseIntervalRuntime j = some r) :
    0 ≤ r.currentRound ∧ 0 ≤ r.timeRemaining := by
  cases j with
  | obj fs =>
    simp only [parseIntervalRuntime, Option.some.injEq] at h
    subst h
    constructor
    · dsimp only
      split <;> omega
    · dsimp only
      split <;> omega
  | null => simp [parseIntervalRuntime] at h
  | bool b => simp [parseIntervalRuntime] at h
  | num n => simp [parseIntervalRuntime] at h
  | str s => simp [parseIntervalRuntime] at h
  | arr xs => simp [parseIntervalRuntime] at h

/-- The validated countdown runtime has nonnegative durations. -/
theorem parseCountdownRuntime_bounds (j : Json) (r : TCountdownRuntime)
    (h : parseCountdownRuntime j = some r) :
    0 ≤ r.timeRemaining ∧ 0 ≤ r.totalTime := by
  cases j with
  | obj fs =>
    simp only [parseCountdownRuntime, Option.some.injEq] at h
    subst h
    constructor
    · dsimp only
      split <;> omega
    · dsimp only
      split <;> omega
  | null => simp [parseCountdownRuntime] at h
  | bool b => simp [parseCountdownRuntime] at h
  | num n => simp [parseCountdownRuntime] at h
  | str s => simp [parseCountdownRuntime] at h
  | arr xs => simp [parseCountdownRuntime] at h

/-- Every alarm that survives validation has a well-formed time string and
day indices in `0..6`. -/
theorem parseAlarm_valid (i : Nat) (j : Json) (a : TAlarm)
    (h : parseAlarm i j = some a) :
    validAlarmTime a.time = true ∧ ∀ dd ∈ a.days, 0 ≤ dd ∧ dd ≤ 6 := by
  simp only [parseAlarm] at h
  split at h
  · exact absurd h (by simp)
  · split at h
    · rename_i t ht
      split at h
      · rename_i hvalid
        simp only [Option.some.injEq] at h
        subst h
        refine ⟨hvalid, ?_⟩
        intro dd hdd
        dsimp only at hdd
        split at hdd
        · rename_i ds hds
          have hdd2 := dedupFirst_subset _ _ hdd
          obtain ⟨dj, _, hg⟩ := List.mem_filterMap.mp hdd2
          split at hg
          · split at hg
            · rename_i n hn hrange
              simp only [Option.some.injEq] at hg
              subst hg
              simp only [Bool.and_eq_true, decide_eq_true_eq] at hrange
              exact hrange
            · exact absurd hg (by simp)
          · exact absurd hg (by simp)
        · simp at hdd
      · exact absurd h (by simp)
    · exact absurd h (by simp)

/-- C5 counterexample: the timer app's `pauseCountdown()` is not a no-op
outside Running: applied to the constructor's idle countdown state it flips
`paused` to `true`, changing the state. -/
theorem c5_counterexample :
    initialCountdownState.running = false ∧
    initialCountdownState.paused = false ∧
    (pauseCountdown initialCountdownState 0).paused = true ∧
    pauseCountdown initialCountdownState 0 ≠ initialCountdownState := by decide

/-- C5 amended: the breathing app's `pauseSession()` has exactly the claimed
contract: a no-op unless the session is active and unpaused, and otherwise
it snapshots both deadlines as remaining-millisecond values at `now` and
sets `paused`, leaving every other field unchanged.  (The timer and pomodoro
pause functions are unguarded at the function level; their call sites are
disabled while not running.) -/
theorem c5_theorem (s : BSession) (now : Int) :
    (¬(s.active = true ∧ s.paused = false) → pauseSession s now = s) ∧
    (s.active = true → s.paused = false →
      pauseSession s now =
        { s with paused := true
                 phaseRemainingMs := max 0 (s.phaseEndsAt - now)
                 sessionRemainingMs := max 0 (s.sessionEndsAt - now) }) := by
  constructor
  · intro h
    cases hA : s.active with
    | false => simp [pauseSession, hA]
    | true =>
      cases hP : s.paused with
      | true => simp [pauseSession, hP]
      | false => exact absurd ⟨hA, hP⟩ h
  · intro h1 h2
    simp [pauseSession, h1, h2]

/-- C5 witness: `pauseSession` applied to the paused copy of `bStarted`
(no-op) and to the running `bStarted` (snapshot) at `now = 1000`. -/
theorem c5_witness :
    (¬((pauseSession bStarted 1000).active = true ∧
        (pauseSession bStarted 1000).paused = false) →
      pauseSession (pauseSession bStarted 1000) 2000 = pauseSession bStarted 1000) ∧
    (bStarted.active = true → bStarted.paused = false →
      pauseSession bStarted 1000 =
        { bStarted with paused := true
                        phaseRemainingMs := max 0 (bStarted.phaseEndsAt - 1000)
                        sessionRemainingMs := max 0 (bStarted.sessionEndsAt - 1000) }) :=
  ⟨(c5_theorem (pauseSession bStarted 1000) 2000).1,
   (c5_theorem bStarted 1000).2⟩

/-- Ranges of every field of the breathing `loadData` try-block result:
`cycles` in `[1,60]`, each duration within its documented bounds, and the
technique one of the three presets. -/
theorem breathing_core_ranges (parsed : Json) :
    (1 ≤ (breathingLoadDataCore parsed).cycles ∧
      (breathingLoadDataCore parsed).cycles ≤ 60) ∧
    (1 ≤ (breathingLoadDataCore parsed).durations.inhale ∧
      (breathingLoadDataCore parsed).durations.inhale ≤ 30) ∧
    (0 ≤ (breathingLoadDataCore parsed).durations.holdIn ∧
      (breathingLoadDataCore parsed).durations.holdIn ≤ 30) ∧
    (1 ≤ (breathingLoadDataCore parsed).durations.exhale ∧
      (breathingLoadDataCore parsed).durations.exhale ≤ 30) ∧
    (0 ≤ (breathingLoadDataCore parsed).durations.holdOut ∧
      (breathingLoadDataCore parsed).durations.holdOut ≤ 30) ∧
    ((breathingLoadDataCore parsed).technique = "box" ∨
      (breathingLoadDataCore parsed).technique = "balanced" ∨
      (breathingLoadDataCore parsed).technique = "four-seven-eight") := by
  simp only [breathingLoadDataCore]
  refine ⟨?_, ?_, ?_, ?_, ?_, ?_⟩
  · exact coerceInt_mem _ 1 60 bFallback.cycles (by decide) (by decide)
  · exact coerceInt_mem _ 1 30 4 (by decide) (by decide)
  · exact coerceInt_mem _ 0 30 4 (by decide) (by decide)
  · exact coerceInt_mem _ 1 30 4 (by decide) (by decide)
  · exact coerceInt_mem _ 0 30 4 (by decide) (by decide)
  · split
    · split
      · rename_i hcond
        simp only [Bool.or_eq_true, decide_eq_true_eq] at hcond
        tauto
      · exact Or.inl rfl
    · exact Or.inl rfl

/-- Ranges of every numeric field of the timer `loadData` defaults. -/
theorem timerDefaults_ranges :
    (5 ≤ timerDefaults.intervalSettings.work ∧
      timerDefaults.intervalSettings.work ≤ 3600) ∧
    (5 ≤ timerDefaults.intervalSettings.rest ∧
      timerDefaults.intervalSettings.rest ≤ 3600) ∧
    (1 ≤ timerDefaults.intervalSettings.rounds ∧
      timerDefaults.intervalSettings.rounds ≤ 99) ∧
    0 ≤ timerDefaults.runtimeLastCompleted ∧
    (∀ x ∈ timerDefaults.recentCountdowns, 0 < x) ∧
    (∀ a ∈ timerDefaults.alarms,
      validAlarmTime a.time = true ∧ ∀ dd ∈ a.days, 0 ≤ dd ∧ dd ≤ 6) ∧
    (∀ r, timerDefaults.runtimeInterval = some r →
      0 ≤ r.currentRound ∧ 0 ≤ r.timeRemaining) ∧
    (∀ r, timerDefaults.runtimeCountdown = some r →
      0 ≤ r.timeRemaining ∧ 0 ≤ r.totalTime) := by
  refine ⟨by decide, by decide, by decide, by decide, by decide, by decide,
    ?_, ?_⟩
  · intro r hr
    simp [timerDefaults] at hr
  · intro r hr
    simp [timerDefaults] at hr

/-- C9: neither `loadData` throws — both are modelled as total functions on
the parse result (`none` standing for an absent key or a `JSON.parse`
exception caught by the surrounding `try`/`catch`), and for EVERY input,
well-formed or not: the breathing settings land in their documented ranges
(`cycles` in `[1,60]`, durations bounded, technique a known preset) with the
session rebuilt Idle, missing snapshots yield the documented fallbacks, the
timer settings land in `[5,3600]`/`[1,99]`, its restored runtime counters
are nonnegative, recent countdowns positive, alarms validated, and a
defaults-restore leaves both engines in their idle initial states. -/
theorem c9_theorem :
    (∀ input : Option Json,
      (input = none → breathingLoadData input = bFallback) ∧
      (1 ≤ (breathingLoadData input).cycles ∧
        (breathingLoadData input).cycles ≤ 60) ∧
      (1 ≤ (breathingLoadData input).durations.inhale ∧
        (breathingLoadData input).durations.inhale ≤ 30) ∧
      (0 ≤ (breathingLoadData input).durations.holdIn ∧
        (breathingLoadData input).durations.holdIn ≤ 30) ∧
      (1 ≤ (breathingLoadData input).durations.exhale ∧
        (breathingLoadData input).durations.exhale ≤ 30) ∧
      (0 ≤ (breathingLoadData input).durations.holdOut ∧
        (breathingLoadData input).durations.holdOut ≤ 30) ∧
      ((breathingLoadData input).technique = "box" ∨
        (breathingLoadData input).technique = "balanced" ∨
        (breathingLoadData input).technique = "four-seven-eight") ∧
      breathingReloadSession input = createIdleSession) ∧
    (∀ input : Option Json,
      (input = none → timerLoadData input = timerDefaults) ∧
      (5 ≤ (timerLoadData input).intervalSettings.work ∧
        (timerLoadData input).intervalSettings.work ≤ 3600) ∧
      (5 ≤ (timerLoadData input).intervalSettings.rest ∧
        (timerLoadData input).intervalSettings.rest ≤ 3600) ∧
      (1 ≤ (timerLoadData input).intervalSettings.rounds ∧
        (timerLoadData input).intervalSettings.rounds ≤ 99) ∧
      0 ≤ (timerLoadData input).runtimeLastCompleted ∧
      (∀ x ∈ (timerLoadData input).recentCountdowns, 0 < x) ∧
      (∀ a ∈ (timerLoadData input).alarms,
        validAlarmTime a.time = true ∧ ∀ dd ∈ a.days, 0 ≤ dd ∧ dd ≤ 6) ∧
      (∀ r, (timerLoadData input).runtimeInterval = some r →
        0 ≤ r.currentRound ∧ 0 ≤ r.timeRemaining) ∧
      (∀ r, (timerLoadData input).runtimeCountdown = some r →
        0 ≤ r.timeRemaining ∧ 0 ≤ r.totalTime)) ∧
    timerRestoreInterval timerDefaults.intervalSettings
      timerDefaults.runtimeInterval resetIntervalState 0 = resetIntervalState ∧
    timerRestoreCountdown timerDefaults initialCountdownState 0 =
      initialCountdownState := by
  refine ⟨?_, ?_, by decide, by decide⟩
  · intro input
    cases input with
    | none =>
      exact ⟨fun _ => rfl, by decide, by decide, by decide, by decide,
        by decide, Or.inl rfl, rfl⟩
    | some j =>
      cases j with
      | null =>
        exact ⟨fun h => Option.noConfusion h, by decide, by decide, by decide, by decide,
          by decide, Or.inl rfl, rfl⟩
      | bool b =>
        obtain ⟨r1, r2, r3, r4, r5, r6⟩ := breathing_core_ranges (.bool b)
        exact ⟨fun h => Option.noConfusion h, r1, r2, r3, r4, r5, r6, rfl⟩
      | num n =>
        obtain ⟨r1, r2, r3, r4, r5, r6⟩ := breathing_core_ranges (.num n)
        exact ⟨fun h => Option.noConfusion h, r1, r2, r3, r4, r5, r6, rfl⟩
      | str s =>
        obtain ⟨r1, r2, r3, r4, r5, r6⟩ := breathing_core_ranges (.str s)
        exact ⟨fun h => Option.noConfusion h, r1, r2, r3, r4, r5, r6, rfl⟩
      | arr xs =>
        obtain ⟨r1, r2, r3, r4, r5, r6⟩ := breathing_core_ranges (.arr xs)
        exact ⟨fun h => Option.noConfusion h, r1, r2, r3, r4, r5, r6, rfl⟩
      | obj fs =>
        obtain ⟨r1, r2, r3, r4, r5, r6⟩ := breathing_core_ranges (.obj fs)
        exact ⟨fun h => Option.noConfusion h, r1, r2, r3, r4, r5, r6, rfl⟩
  · intro input
    obtain ⟨q1, q2, q3, q4, q5, q6, q7, q8⟩ := timerDefaults_ranges
    cases input with
    | none => exact ⟨fun _ => rfl, q1, q2, q3, q4, q5, q6, q7, q8⟩
    | some j =>
      cases j with
      | null => exact ⟨fun h => Option.noConfusion h, q1, q2, q3, q4, q5, q6, q7, q8⟩
      | bool b => exact ⟨fun h => Option.noConfusion h, q1, q2, q3, q4, q5, q6, q7, q8⟩
      | num n => exact ⟨fun h => Option.noConfusion h, q1, q2, q3, q4, q5, q6, q7, q8⟩
      | str s => exact ⟨fun h => Option.noConfusion h, q1, q2, q3, q4, q5, q6, q7, q8⟩
      | arr xs => exact ⟨fun h => Option.noConfusion h, q1, q2, q3, q4, q5, q6, q7, q8⟩
      | obj fs =>
        refine ⟨fun h => Option.noConfusion h, ?_, ?_, ?_, ?_, ?_, ?_, ?_, ?_⟩
        · simp only [timerLoadData]
          exact toBoundedInt_mem _ 5 3600 30 (by decide) (by decide)
        · simp only [timerLoadData]
          exact toBoundedInt_mem _ 5 3600 10 (by decide) (by decide)
        · simp only [timerLoadData]
          exact toBoundedInt_mem _ 1 99 8 (by decide) (by decide)
        · simp only [timerLoadData]
          split
          · exact le_max_left 0 _
          · decide
        · intro x hx
          simp only [timerLoadData] at hx
          split at hx
          · simp [timerDefaults] at hx
            rcases hx with rfl | rfl | rfl <;> norm_num
          · split at hx
            · have hx2 := List.take_subset _ _ hx
              obtain ⟨o, ho, hfo⟩ := List.mem_filterMap.mp hx2
              split at hfo
              · split at hfo
                · rename_i hpos
                  simp only [Option.some.injEq] at hfo
                  subst hfo
                  exact hpos
                · exact absurd hfo (by simp)
              · exact absurd hfo (by simp)
            · simp [timerDefaults] at hx
              rcases hx with rfl | rfl | rfl <;> norm_num
        · intro a ha
          simp only [timerLoadData] at ha
          split at ha
          · obtain ⟨p, hp, hpa⟩ := List.mem_filterMap.mp ha
            exact parseAlarm_valid p.1 p.2 a hpa
          · simp [timerDefaults] at ha
        · intro r hr
          simp only [timerLoadData] at hr
          split at hr
          · split at hr
            · exact parseIntervalRuntime_bounds _ r hr
            · exact absurd hr (by simp)
          · exact absurd hr (by simp)
        · intro r hr
          simp only [timerLoadData] at hr
          split at hr
          · split at hr
            · exact parseCountdownRuntime_bounds _ r hr
            · exact absurd hr (by simp)
          · exact absurd hr (by simp)

/-- C9 witness: the breathing range facts at the malformed snapshot
`{"cycles": 1000}` (clamped to 60) and the timer default fact at a missing
snapshot, both read off `c9_theorem` at those concrete inputs. -/
theorem c9_witness :
    (1 ≤ (breathingLoadData (some (.obj [("cycles", .num 1000)]))).cycles ∧
      (breathingLoadData (some (.obj [("cycles", .num 1000)]))).cycles ≤ 60) ∧
    timerLoadData none = timerDefaults :=
  ⟨(c9_theorem.1 (some (.obj [("cycles", .num 1000)]))).2.1,
   (c9_theorem.2.1 none).1 rfl⟩

end Marlapps
